import Mathlib

/-!
# A verification model of the `build-your-own` jotai store

This file gives a shallow embedding of the reactive atom store implemented in
`src/apps/build-your-own/src/lib/jotai/store.ts` (an identical copy of the
engine lives in the unnamed `internals.ts` source, `src/unnamed/part_005`),
together with the helpers of `internals.ts` (`src/unnamed/part_001`) and the
atom constructors of `atom.ts`.

Modelling decisions:
* Atom descriptors are identified by natural numbers (`AtomId`); the
  descriptor table (`Env`) maps an id to its `read` program, optional `write`
  program, optional `init` value and optional `onMount` hook, mirroring the
  fields produced by the `atom(...)` constructor.
* Atom values are integers (`Value := Int`); `Object.is` on such values is
  plain decidable equality.
* User `read` functions are deep-embedded as `RExpr` programs whose only
  effect is calling the getter supplied by `readAtomState`; user `write`
  functions are `WExpr` programs calling the supplied getter/setter.  The
  default `read`/`write` of a primitive atom (`defaultRead`, `defaultWrite`
  in `atom.ts`) are expressed in this language by `primitiveAtom`.
* JavaScript `Map`s become insertion-ordered association lists (`jsMapSet`
  updates in place, otherwise appends, like `Map.prototype.set`);
  JavaScript `Set`s become insertion-ordered duplicate-free lists.
* All mutation is explicit state passing over `StoreSt`.  JavaScript
  exceptions become the `Except Err` layer of the `M` monad; unbounded
  loops/recursion consume explicit fuel, with exhaustion modelled by `none`.
* The store state carries three instrumentation fields that the source
  observes through side effects: `reads` (each invocation of an atom's read
  function, i.e. each `atomRead` call), `getterLog` (each non-self getter
  call, recording the dependency and the epoch observed), and `log` (entries
  appended by listener and `onMount` callbacks).
* Listener callbacks and `onMount` hooks are drawn from small effect
  languages (`CB`, `MountSpec`): they may append to the log and/or throw.
  The modelled hooks never call the bound `setAtom` back into the store.
* `Mounted.onUnmount` is modelled as a `Bool` flag: the source stores the
  hook on the mounted record but never enqueues it into `unmountCallbacks`
  (no call site adds to that set), so its payload is unobservable.
  `unmountCallbacks` is typed as a list of `CB` so that the flush loop can
  still be analysed on states where it is nonempty.
-/

namespace MiniJotai

abbrev Value := Int
abbrev AtomId := Nat

/-- Errors thrown by the store or by user code.  `user` covers values thrown
by read/write functions and callbacks; the other constructors correspond to
the `throw new Error(...)` sites and the final `AggregateError`. -/
inductive Err where
  /-- a value thrown by user code (read/write function, listener, hook) -/
  | user (code : Int)
  /-- `throw new Error('no atom init')` in the getter's self branch -/
  | noAtomInit
  /-- `throw new Error('atom not writable')` in the setter -/
  | atomNotWritable
  /-- `throw new Error('invalidated atom exists')` in the topological sort -/
  | invalidatedAtomExists
  /-- `throw new Error('atom state is not initialized')` in `returnAtomValue` -/
  | uninitialized
  /-- calling `atom.write(...)` on a descriptor with no write function
  (a `TypeError` in JavaScript) -/
  | notAFunction
  /-- `throw new AggregateError(errors)` at the end of `flushCallbacks` -/
  | aggregate (errs : List Err)

/-- Deep embedding of user read functions: a read program either returns a
value, throws, or calls the supplied getter on an atom and continues with the
returned value. -/
inductive RExpr where
  | lit (v : Value)
  | throwE (code : Int)
  | getThen (a : AtomId) (k : Value → RExpr)

/-- Deep embedding of user write functions: a write program returns, throws,
reads an atom through the supplied getter, or writes a value to an atom
through the supplied setter. -/
inductive WExpr where
  | ret
  | throwW (code : Int)
  | getThen (a : AtomId) (k : Value → WExpr)
  | setThen (target : AtomId) (v : Value) (k : WExpr)

/-- Listener callbacks (the `() => void` functions passed to `store.sub`):
they append an entry to the observation log and optionally throw.  Two
listeners are the same JavaScript function object iff they are equal values
of this type. -/
inductive CB where
  | log (i : Nat)
  | logThenThrow (i : Nat) (code : Int)
  deriving DecidableEq, Repr

/-- Behaviour of a user `onMount` hook: log an entry, then either throw or
optionally return an `onUnmount` hook (whose registration we record as a
flag). -/
structure MountSpec where
  logId : Nat
  thenThrow : Option Int := none
  retUnmount : Bool := false

/-- An atom descriptor, as produced by the overloads of `atom(...)`:
`hasInitialValue` is `init.isSome`, `isActuallyWritableAtom` is
`write.isSome`. -/
structure AtomDef where
  read : RExpr
  write : Option (Value → WExpr) := none
  init : Option Value := none
  onMount : Option MountSpec := none

/-- The descriptor table: every atom id denotes a descriptor. -/
abbrev Env := AtomId → AtomDef

/-- A primitive atom `atom(v)`: `defaultRead` is `get(this)` and
`defaultWrite` is `set(this, arg)` (our writes always pass a plain value, not
an updater function). -/
def primitiveAtom (self : AtomId) (v : Value) : AtomDef where
  read := .getThen self (fun x => .lit x)
  write := some (fun w => .setThen self w .ret)
  init := some v

/-- A read-only derived atom `atom(read)`. -/
def derivedAtom (read : RExpr) : AtomDef where
  read := read

/-! ## JavaScript collections as association lists -/

/-- `Map.prototype.get`. -/
def jsLookup {α : Type} : List (Nat × α) → Nat → Option α
  | [], _ => none
  | (k, v) :: rest, k' => if k = k' then some v else jsLookup rest k'

/-- `Map.prototype.set`: updates in place when the key is present (keeping
its position, like a JavaScript `Map`), otherwise appends. -/
def jsMapSet {α : Type} : List (Nat × α) → Nat → α → List (Nat × α)
  | [], k, v => [(k, v)]
  | (k', v') :: rest, k, v =>
      if k' = k then (k, v) :: rest else (k', v') :: jsMapSet rest k v

/-- `Map.prototype.delete`. -/
def jsMapDelete {α : Type} (m : List (Nat × α)) (k : Nat) : List (Nat × α) :=
  m.filter (fun p => p.1 ≠ k)

/-- Update the entry at `k` when present (mutation of the live record). -/
def jsMapUpdate {α : Type} : List (Nat × α) → Nat → (α → α) → List (Nat × α)
  | [], _, _ => []
  | (k1, v1) :: rest, k, f =>
      if k1 = k then (k1, f v1) :: jsMapUpdate rest k f
      else (k1, v1) :: jsMapUpdate rest k f

/-- `Set.prototype.add`: appends unless already present. -/
def jsSetAdd {α : Type} [DecidableEq α] (s : List α) (x : α) : List α :=
  if x ∈ s then s else s ++ [x]

/-- `Set.prototype.delete`. -/
def jsSetDelete {α : Type} [DecidableEq α] (s : List α) (x : α) : List α :=
  s.filter (fun y => y ≠ x)

/-! ## Runtime state -/

/-- The `AtomState` record of `internals.ts`: `value`/`error` slots (at most
one present), the dependency map (atom id ↦ epoch observed at read time, in
insertion order) and the epoch number `n`.  The `listeners` set that
`ensureAtomState` also initialises is never used by the store (all live
listeners sit on the mounted record), so it is omitted here. -/
structure AtomSt where
  value : Option Value := none
  error : Option Err := none
  deps : List (AtomId × Nat) := []
  n : Nat := 0

/-- The `Mounted` record: listeners, mounted dependency/dependent edges, and
whether an `onUnmount` hook has been stored by `processOnMount`. -/
structure MountedSt where
  listeners : List CB := []
  dependencies : List AtomId := []
  dependents : List AtomId := []
  onUnmount : Bool := false
  deriving DecidableEq, Repr

/-- The mutable state of one store built by `buildStore`, plus the three
instrumentation logs (`reads`, `getterLog`, `log`) described in the header.
`mountCallbacks` holds the atom ids whose (always fresh, hence never
deduplicated) `processOnMount` closure is pending. -/
structure StoreSt where
  atomStateMap : List (AtomId × AtomSt) := []
  mountedMap : List (AtomId × MountedSt) := []
  invalidatedAtoms : List (AtomId × Nat) := []
  changedAtoms : List AtomId := []
  mountCallbacks : List AtomId := []
  unmountCallbacks : List CB := []
  reads : List AtomId := []
  getterLog : List (AtomId × AtomId × Nat) := []
  log : List Nat := []

def StoreSt.stateOf (s : StoreSt) (i : AtomId) : AtomSt :=
  (jsLookup s.atomStateMap i).getD {}

def StoreSt.mountedOf (s : StoreSt) (i : AtomId) : Option MountedSt :=
  jsLookup s.mountedMap i

/-! ## The store monad: state passing, exceptions, fuel -/

/-- Computations over the store: `none` is fuel exhaustion, the `Except`
layer carries JavaScript exceptions (which do not roll the state back). -/
abbrev M (α : Type) : Type := StoreSt → Option (Except Err α × StoreSt)

def mpure {α : Type} (a : α) : M α := fun s => some (.ok a, s)

def mthrow {α : Type} (e : Err) : M α := fun s => some (.error e, s)

/-- Out of fuel. -/
def mfail {α : Type} : M α := fun _ => none

def mbind {α β : Type} (x : M α) (f : α → M β) : M β := fun s =>
  match x s with
  | none => none
  | some (.error e, s1) => some (.error e, s1)
  | some (.ok a, s1) => f a s1

def mmodify (f : StoreSt → StoreSt) : M Unit := fun s => some (.ok (), f s)

def mget : M StoreSt := fun s => some (.ok s, s)

/-- `try x catch (e) { h e }`. -/
def mtryCatch {α : Type} (x : M α) (h : Err → M α) : M α := fun s =>
  match x s with
  | none => none
  | some (.error e, s1) => h e s1
  | some (.ok a, s1) => some (.ok a, s1)

/-- `try x finally fin`: `fin` runs on both paths; an exception raised by
`fin` replaces the pending result, as in JavaScript. -/
def mtryFinally {α : Type} (x : M α) (fin : M Unit) : M α := fun s =>
  match x s with
  | none => none
  | some (r, s1) =>
      match fin s1 with
      | none => none
      | some (.ok _, s2) => some (r, s2)
      | some (.error e, s2) => some (.error e, s2)

def liftExcept {α : Type} : Except Err α → M α
  | .ok a => mpure a
  | .error e => mthrow e

/-! ## Non-recursive helpers from the source -/

/-- `isAtomStateInitialized`: a value or an error is present. -/
def isAtomStateInitialized (st : AtomSt) : Bool :=
  st.value.isSome || st.error.isSome

/-- `returnAtomValue`: throw the cached error if present, throw
`'atom state is not initialized'` if no value is present, else return the
value. -/
def returnAtomValuePure (st : AtomSt) : Except Err Value :=
  match st.error with
  | some e => .error e
  | none =>
      match st.value with
      | some v => .ok v
      | none => .error .uninitialized

/-- `ensureAtomState`: insert a fresh default state when absent.  (The
`atom` null check at the top cannot fire in this model.) -/
def ensureAtomState (i : AtomId) : M Unit :=
  mmodify fun s =>
    match jsLookup s.atomStateMap i with
    | some _ => s
    | none => { s with atomStateMap := jsMapSet s.atomStateMap i {} }

/-- Read the (live) state of an atom; callers always `ensureAtomState`
first, mirroring how the source holds the live object. -/
def getAtomSt (i : AtomId) : M AtomSt := fun s => some (.ok (s.stateOf i), s)

def updAtomSt (i : AtomId) (f : AtomSt → AtomSt) : M Unit :=
  mmodify fun s => { s with atomStateMap := jsMapUpdate s.atomStateMap i f }

def updMounted (i : AtomId) (f : MountedSt → MountedSt) : M Unit :=
  mmodify fun s => { s with mountedMap := jsMapUpdate s.mountedMap i f }

/-- The body of the standalone `setAtomStateValue` helper, as a pure
transformation of one atom state: store the value, delete the error, and
bump `n` unless a previous value existed and is `Object.is`-equal to the new
one. -/
def AtomSt.setValue (st : AtomSt) (v : Value) : AtomSt :=
  { st with
    value := some v
    error := none
    n := match st.value with
      | none => st.n + 1
      | some prev => if prev = v then st.n else st.n + 1 }

/-- The mutation performed by the `catch` block of `readAtomState`: delete
the value, store the error, and increment the epoch. -/
def AtomSt.setError (st : AtomSt) (e : Err) : AtomSt :=
  { st with value := none, error := some e, n := st.n + 1 }

/-- `setAtomStateValue(atom, value, ensureAtomState)`. -/
def setAtomStateValue (i : AtomId) (v : Value) : M Unit :=
  mbind (ensureAtomState i) fun _ => updAtomSt i (fun st => st.setValue v)

/-- `getMountedDependents`: the mounted dependents of `atom` that are still
themselves mounted (a fresh `Set`, preserving insertion order). -/
def getMountedDependents (s : StoreSt) (i : AtomId) : List AtomId :=
  (((s.mountedOf i).map (fun m => m.dependents)).getD []).filter
    (fun d => (s.mountedOf d).isSome)

/-- The getter built inside `readAtomState`, reading atom `a` during the
evaluation of atom `self`.  For `self` itself: initialise from `init` (or
throw `'no atom init'`), then return the value.  For any other atom: plainly
return the cached value/error of its state — note the source does *not*
recursively evaluate the dependency here — and, in a `finally` block,
record the dependency with the epoch observed and register `self` as a
dependent on `a`'s mounted record.  The instrumentation entry
`(self, a, n)` is appended exactly when the dependency is recorded. -/
def getterRead (env : Env) (self a : AtomId) : M Value :=
  if a = self then
    mbind (ensureAtomState a) fun _ =>
    mbind (getAtomSt a) fun aState =>
    mbind
      (if isAtomStateInitialized aState then mpure ()
       else
         match (env a).init with
         | some iv => setAtomStateValue a iv
         | none => mthrow .noAtomInit)
      fun _ =>
    mbind (getAtomSt a) fun aState2 => liftExcept (returnAtomValuePure aState2)
  else
    mbind (ensureAtomState a) fun _ =>
    fun s =>
      let aState := s.stateOf a
      let r := returnAtomValuePure aState
      let s1 :=
        { s with
          atomStateMap :=
            jsMapUpdate s.atomStateMap self
              (fun st => { st with deps := jsMapSet st.deps a aState.n })
          getterLog := s.getterLog ++ [(self, a, aState.n)] }
      let s2 :=
        match s1.mountedOf a with
        | some _ =>
            { s1 with
              mountedMap :=
                jsMapUpdate s1.mountedMap a
                  (fun m => { m with dependents := jsSetAdd m.dependents self }) }
        | none => s1
      some (r, s2)

/-- Run a read program against the getter.  Structural on the program: the
getter itself never re-enters the evaluator. -/
def evalRead (env : Env) (self : AtomId) : RExpr → M Value
  | .lit v => mpure v
  | .throwE c => mthrow (.user c)
  | .getThen a k =>
      mbind (getterRead env self a) fun v => evalRead env self (k v)

/-- The recomputation section of `readAtomState` (everything after the cache
checks): clear the dependencies, run the read function against the getter
(`atomRead` — instrumented in `reads`), store the value or the error, and in
a `finally` block mark the atom invalidated-at-new-epoch and changed if the
epoch moved while the atom was invalidated at its previous epoch. -/
def recomputeAtomState (env : Env) (i : AtomId) : M AtomSt :=
  mbind (updAtomSt i (fun st => { st with deps := [] })) fun _ =>
  mbind (getAtomSt i) fun st0 =>
  let prevEpochNumber := st0.n
  mtryFinally
    (mbind
      (mtryCatch
        (mbind (mmodify (fun s => { s with reads := s.reads ++ [i] })) fun _ =>
         mbind (evalRead env i (env i).read) fun value =>
         setAtomStateValue i value)
        (fun e => updAtomSt i (fun st => st.setError e)))
      fun _ => getAtomSt i)
    (mbind (getAtomSt i) fun st =>
     mbind mget fun s =>
     if prevEpochNumber ≠ st.n ∧
        jsLookup s.invalidatedAtoms i = some prevEpochNumber then
       mmodify fun s1 =>
         { s1 with
           invalidatedAtoms := jsMapSet s1.invalidatedAtoms i st.n
           changedAtoms := jsSetAdd s1.changedAtoms i }
     else mpure ())

/- `readAtomState` and the `Array.from(dependencies).every(...)` loop of
its cache check, which recursively reads each recorded dependency and
compares the returned epoch with the recorded one (short-circuiting like
`every`). -/
mutual

def readAtomState (env : Env) : Nat → AtomId → M AtomSt
  | 0, _ => mfail
  | fuel + 1, i =>
      mbind (ensureAtomState i) fun _ =>
      mbind (getAtomSt i) fun atomState =>
      if isAtomStateInitialized atomState then
        mbind mget fun s =>
        if (s.mountedOf i).isSome ∧
           jsLookup s.invalidatedAtoms i ≠ some atomState.n then
          mpure atomState
        else
          mbind (readDepsUnchanged env fuel atomState.deps) fun allSame =>
          if allSame then getAtomSt i
          else recomputeAtomState env i
      else recomputeAtomState env i

def readDepsUnchanged (env : Env) : Nat → List (AtomId × Nat) → M Bool
  | 0, _ => mfail
  | _ + 1, [] => mpure true
  | fuel + 1, (a, n) :: rest =>
      mbind (readAtomState env fuel a) fun aState =>
      if aState.n = n then readDepsUnchanged env fuel rest else mpure false

end

/-- `invalidateDependents`: walk the mounted-dependents relation from `atom`
with an explicit stack (top at the head), marking every reached dependent
invalidated at its current epoch. -/
def invalidateLoop (env : Env) : Nat → List AtomId → M Unit
  | 0, _ => mfail
  | _ + 1, [] => mpure ()
  | fuel + 1, a :: rest =>
      mbind mget fun s =>
      let ds := getMountedDependents s a
      mbind
        (mmodify fun s1 =>
          { s1 with
            invalidatedAtoms :=
              ds.foldl (fun m d => jsMapSet m d (s1.stateOf d).n)
                s1.invalidatedAtoms })
        fun _ =>
      invalidateLoop env fuel (ds.reverse ++ rest)

def invalidateDependents (env : Env) (fuel : Nat) (i : AtomId) : M Unit :=
  invalidateLoop env fuel [i]

/-- The iterative depth-first post-order walk at the top of
`recomputeInvalidatedAtoms`: peek at the top of the stack; a `visited` atom
is dropped; a `visiting` atom is finalised (pushed onto the reverse
topological list if invalidated at its current epoch, with the
`'invalidated atom exists'` guard) and marked visited; otherwise it is
marked visiting and its unvisiting mounted dependents are pushed. -/
def topoLoop (env : Env) :
    Nat → List AtomId → List AtomId → List AtomId → List AtomId →
    M (List AtomId)
  | 0, _, _, _, _ => mfail
  | _ + 1, [], _, _, acc => mpure acc
  | fuel + 1, a :: rest, visiting, visited, acc =>
      mbind (ensureAtomState a) fun _ =>
      mbind (getAtomSt a) fun aState =>
      if a ∈ visited then topoLoop env fuel rest visiting visited acc
      else if a ∈ visiting then
        mbind mget fun s =>
        mbind
          (if jsLookup s.invalidatedAtoms a = some aState.n then
             mpure (acc ++ [a])
           else if (jsLookup s.invalidatedAtoms a).isSome then
             mthrow .invalidatedAtomExists
           else mpure acc)
          fun acc1 =>
        topoLoop env fuel rest visiting (visited ++ [a]) acc1
      else
        mbind mget fun s =>
        let visiting1 := visiting ++ [a]
        let pushes := (getMountedDependents s a).filter (fun d => d ∉ visiting1)
        topoLoop env fuel (pushes.reverse ++ (a :: rest)) visiting1 visited acc

/- `mountAtom` and its recursive loop over the freshly recorded
dependencies.  When already mounted the body is skipped — but the
`isActuallyWritableAtom` check below the `if (!mounted)` block still runs,
enqueueing a fresh `processOnMount` closure on every call. -/
mutual

def mountAtom (env : Env) : Nat → AtomId → M MountedSt
  | 0, _ => mfail
  | fuel + 1, i =>
      mbind (ensureAtomState i) fun _ =>
      mbind mget fun s0 =>
      mbind
        (match s0.mountedOf i with
         | some m => mpure m
         | none =>
             mbind (readAtomState env fuel i) fun _ =>
             mbind (getAtomSt i) fun atomState =>
             mbind (mountDepsList env fuel i (atomState.deps.map Prod.fst))
               fun _ =>
             mbind (getAtomSt i) fun atomState1 =>
             let m : MountedSt :=
               { listeners := []
                 dependencies := atomState1.deps.map Prod.fst
                 dependents := [] }
             mbind
               (mmodify fun s =>
                 { s with mountedMap := jsMapSet s.mountedMap i m })
               fun _ => mpure m)
        fun m =>
      mbind
        (if (env i).write.isSome then
           mmodify fun s => { s with mountCallbacks := s.mountCallbacks ++ [i] }
         else mpure ())
        fun _ => mpure m

def mountDepsList (env : Env) : Nat → AtomId → List AtomId → M Unit
  | 0, _, _ => mfail
  | _ + 1, _, [] => mpure ()
  | fuel + 1, i, a :: rest =>
      mbind (mountAtom env fuel a) fun _ =>
      mbind (updMounted a (fun m => { m with dependents := jsSetAdd m.dependents i }))
        fun _ =>
      mountDepsList env fuel i rest

end

/-- The body of the `for (const [a, n] of atomState.dependencies)` loop of
`mountDependencies`: for each dependency not yet tracked on the mounted
record, mount it, register the edge in both directions, and mark it changed
when its current epoch differs from the recorded one. -/
def mountDepsPairs (env : Env) (fuel : Nat) (i : AtomId) :
    List (AtomId × Nat) → M Unit
  | [] => mpure ()
  | (a, n) :: rest =>
      mbind mget fun s =>
      mbind
        (match s.mountedOf i with
         | none => mpure ()
         | some mounted =>
             if a ∈ mounted.dependencies then mpure ()
             else
               mbind (ensureAtomState a) fun _ =>
               mbind (mountAtom env fuel a) fun _ =>
               mbind
                 (updMounted a
                   (fun m => { m with dependents := jsSetAdd m.dependents i }))
                 fun _ =>
               mbind
                 (updMounted i
                   (fun m => { m with dependencies := jsSetAdd m.dependencies a }))
                 fun _ =>
               mbind (getAtomSt a) fun aState =>
               if n ≠ aState.n then
                 mmodify fun s1 =>
                   { s1 with changedAtoms := jsSetAdd s1.changedAtoms a }
               else mpure ())
        fun _ => mountDepsPairs env fuel i rest

/-- `mountDependencies`: no-op unless the atom is mounted. -/
def mountDependencies (env : Env) (fuel : Nat) (i : AtomId) : M Unit :=
  mbind (ensureAtomState i) fun _ =>
  mbind mget fun s =>
  match s.mountedOf i with
  | none => mpure ()
  | some _ =>
      mbind (getAtomSt i) fun atomState =>
      mountDepsPairs env fuel i atomState.deps

/-- The recomputation pass at the bottom of `recomputeInvalidatedAtoms`,
iterating the reverse-topological list from the root end: recompute an atom
(and re-mount its dependencies) only when one of its recorded dependencies
other than itself is currently marked changed, then drop its invalidation
entry. -/
def recomputeList (env : Env) (fuel : Nat) : List AtomId → M Unit
  | [] => mpure ()
  | a :: rest =>
      mbind (getAtomSt a) fun aState =>
      mbind mget fun s =>
      let hasChangedDeps :=
        aState.deps.any (fun p => p.1 ≠ a && decide (p.1 ∈ s.changedAtoms))
      mbind
        (if hasChangedDeps then
           mbind (readAtomState env fuel a) fun _ => mountDependencies env fuel a
         else mpure ())
        fun _ =>
      mbind
        (mmodify fun s1 =>
          { s1 with invalidatedAtoms := jsMapDelete s1.invalidatedAtoms a })
        fun _ =>
      recomputeList env fuel rest

/-- `recomputeInvalidatedAtoms`: topologically sort the subgraph of mounted
dependents reachable from the changed atoms, then walk it from the roots. -/
def recomputeInvalidatedAtoms (env : Env) : Nat → M Unit
  | 0 => mfail
  | fuel + 1 =>
      mbind mget fun s =>
      mbind (topoLoop env fuel s.changedAtoms [] [] []) fun topSortedReversed =>
      recomputeList env fuel topSortedReversed.reverse

/- `writeAtomState`, the setter it builds, and the evaluator for write
programs.  The getter of the write path performs the full read
(`returnAtomValue(readAtomState(a))`), unlike the read-path getter. -/
mutual

def writeAtomState (env : Env) : Nat → AtomId → Value → M Unit
  | 0, _, _ => mfail
  | fuel + 1, i, arg =>
      match (env i).write with
      | none => mthrow .notAFunction
      | some wf => evalWrite env fuel i (wf arg)
termination_by structural fuel => fuel

def evalWrite (env : Env) : Nat → AtomId → WExpr → M Unit
  | 0, _, _ => mfail
  | _ + 1, _, .ret => mpure ()
  | _ + 1, _, .throwW c => mthrow (.user c)
  | fuel + 1, self, .getThen a k =>
      mbind (readAtomState env fuel a) fun aState =>
      mbind (liftExcept (returnAtomValuePure aState)) fun v =>
      evalWrite env fuel self (k v)
  | fuel + 1, self, .setThen target v k =>
      mbind (setterCall env fuel self target v) fun _ =>
      evalWrite env fuel self k
termination_by structural fuel => fuel

def setterCall (env : Env) : Nat → AtomId → AtomId → Value → M Unit
  | 0, _, _, _ => mfail
  | fuel + 1, self, a, v =>
      mbind (ensureAtomState a) fun _ =>
      if a = self then
        if (env a).init.isNone then mthrow .atomNotWritable
        else
          mbind (getAtomSt a) fun aState0 =>
          let prevEpochNumber := aState0.n
          mbind (setAtomStateValue a v) fun _ =>
          mbind (mountDependencies env fuel a) fun _ =>
          mbind (getAtomSt a) fun aState1 =>
          if prevEpochNumber ≠ aState1.n then
            mbind
              (mmodify fun s =>
                { s with changedAtoms := jsSetAdd s.changedAtoms a })
              fun _ =>
            invalidateDependents env fuel a
          else mpure ()
      else writeAtomState env fuel a v
termination_by structural fuel => fuel

end

/- `unmountAtom` and its recursive loop over the recorded dependencies:
proceed only when mounted with no listeners and no mounted dependent that
still tracks this atom among its mounted dependencies; on success delete the
mounted record first, then try to unmount each dependency, removing the edge
from every dependency that stayed mounted. -/
mutual

def unmountAtom (env : Env) : Nat → AtomId → M (Option MountedSt)
  | 0, _ => mfail
  | fuel + 1, i =>
      mbind (ensureAtomState i) fun _ =>
      mbind (getAtomSt i) fun atomState =>
      mbind mget fun s =>
      match s.mountedOf i with
      | none => mpure none
      | some mounted =>
          if mounted.listeners = [] ∧
             ¬ ∃ a ∈ mounted.dependents,
                 i ∈ (((s.mountedOf a).map (fun m => m.dependencies)).getD [])
          then
            mbind
              (mmodify fun s1 =>
                { s1 with mountedMap := jsMapDelete s1.mountedMap i })
              fun _ =>
            mbind (unmountDepsList env fuel i (atomState.deps.map Prod.fst))
              fun _ => mpure none
          else mpure (some mounted)

def unmountDepsList (env : Env) : Nat → AtomId → List AtomId → M Unit
  | 0, _, _ => mfail
  | _ + 1, _, [] => mpure ()
  | fuel + 1, i, a :: rest =>
      mbind (unmountAtom env fuel a) fun aMounted =>
      mbind
        (match aMounted with
         | some _ =>
             updMounted a
               (fun m => { m with dependents := jsSetDelete m.dependents i })
         | none => mpure ())
        fun _ =>
      unmountDepsList env fuel i rest

end

/-! ## The callback flush loop -/

/-- One pending callback collected by an iteration of `flushCallbacks`:
a listener of a changed atom, a pending `onUnmount` hook, or a pending
`processOnMount` closure for an atom. -/
inductive Task where
  | listener (cb : CB)
  | unmountCb (cb : CB)
  | mountCb (a : AtomId)
  deriving DecidableEq, Repr

/-- The collection phase of one `do` iteration: gather the listeners of all
changed atoms into a `Set` (deduplicated, in insertion order), then the
pending unmount callbacks, then the pending mount callbacks (always fresh
closures, never deduplicated against anything), clearing all three sources.
-/
def collectTasks (s : StoreSt) : List Task × StoreSt :=
  let listenerCBs :=
    s.changedAtoms.foldl
      (fun acc a =>
        match s.mountedOf a with
        | some m => m.listeners.foldl jsSetAdd acc
        | none => acc)
      []
  (listenerCBs.map Task.listener ++ s.unmountCallbacks.map Task.unmountCb ++
     s.mountCallbacks.map Task.mountCb,
   { s with changedAtoms := [], unmountCallbacks := [], mountCallbacks := [] })

/-- Run one collected callback (the raw `fn`, which may throw).  A
`processOnMount` closure invokes `atomOnMount` — in this model the hook logs
its entry, then throws or stores its returned `onUnmount` hook on the (live)
mounted record of the atom if one is still present. -/
def runTask (env : Env) : Task → M Unit
  | .listener (.log i) => mmodify fun s => { s with log := s.log ++ [i] }
  | .listener (.logThenThrow i c) =>
      mbind (mmodify fun s => { s with log := s.log ++ [i] }) fun _ =>
      mthrow (.user c)
  | .unmountCb (.log i) => mmodify fun s => { s with log := s.log ++ [i] }
  | .unmountCb (.logThenThrow i c) =>
      mbind (mmodify fun s => { s with log := s.log ++ [i] }) fun _ =>
      mthrow (.user c)
  | .mountCb a =>
      match (env a).onMount with
      | none => mpure ()
      | some spec =>
          mbind (mmodify fun s => { s with log := s.log ++ [spec.logId] })
            fun _ =>
          match spec.thenThrow with
          | some c => mthrow (.user c)
          | none =>
              if spec.retUnmount then
                updMounted a (fun m => { m with onUnmount := true })
              else mpure ()

/-- `callbacks.forEach(call)`: run every task, catching each error into the
accumulator and continuing. -/
def runCalls (env : Env) (tasks : List Task) (errs : List Err) (s : StoreSt) :
    List Err × StoreSt :=
  tasks.foldl
    (fun (acc : List Err × StoreSt) t =>
      match runTask env t acc.2 with
      | some (.ok _, s1) => (acc.1, s1)
      | some (.error e, s1) => (acc.1 ++ [e], s1)
      | none => acc)
    (errs, s)

/-- The `do`/`while` loop of `flushCallbacks`, threading the error
accumulator declared outside the loop: collect and run the callbacks, rerun
the recomputation pass if running them marked new atoms changed, and repeat
until no pending work remains. -/
def flushLoop (env : Env) : Nat → List Err → M (List Err)
  | 0, _ => mfail
  | fuel + 1, errs => fun s =>
        let (tasks, s1) := collectTasks s
        let (errs1, s2) := runCalls env tasks errs s1
        (mbind
          (if s2.changedAtoms ≠ [] then recomputeInvalidatedAtoms env fuel
           else mpure ())
          fun _ =>
         mbind mget fun s3 =>
         if s3.changedAtoms ≠ [] ∨ s3.unmountCallbacks ≠ [] ∨
            s3.mountCallbacks ≠ [] then
           flushLoop env fuel errs1
         else mpure errs1) s2

/-- `flushCallbacks`: drain the loop, then raise all collected errors at
once as an `AggregateError`. -/
def flushCallbacks (env : Env) : Nat → M Unit
  | 0 => mfail
  | fuel + 1 =>
      mbind (flushLoop env fuel []) fun errs =>
      match errs with
      | [] => mpure ()
      | _ => mthrow (.aggregate errs)

/-! ## The store interface -/

/-- `store.get`: `returnAtomValue(readAtomState(atom))`. -/
def storeGet (env : Env) : Nat → AtomId → M Value
  | 0, _ => mfail
  | fuel + 1, i =>
      mbind (readAtomState env fuel i) fun st =>
      liftExcept (returnAtomValuePure st)

/-- `store.set`: run the write, and in a `finally` block run the
recomputation pass and flush the callbacks (so they run even when the write
function throws, whose error then propagates unless the flush itself
throws). -/
def storeSet (env : Env) : Nat → AtomId → Value → M Unit
  | 0, _, _ => mfail
  | fuel + 1, i, arg =>
      mtryFinally (writeAtomState env fuel i arg)
        (mbind (recomputeInvalidatedAtoms env fuel) fun _ =>
         flushCallbacks env fuel)

/-- `store.sub`: mount the atom, add the listener to the mounted record's
listener set, and flush. -/
def storeSub (env : Env) : Nat → AtomId → CB → M Unit
  | 0, _, _ => mfail
  | fuel + 1, i, listener =>
      mbind (mountAtom env fuel i) fun _ =>
      mbind
        (updMounted i
          (fun m => { m with listeners := jsSetAdd m.listeners listener }))
        fun _ =>
      flushCallbacks env fuel

/-! ## Helpers for stating and running scenarios -/

/-- The result component of a run. -/
def runOut {α : Type} (r : Option (Except Err α × StoreSt)) :
    Option (Except Err α) :=
  r.map Prod.fst

/-- The state component of a run (empty store when out of fuel). -/
def runState {α : Type} (r : Option (Except Err α × StoreSt)) : StoreSt :=
  (r.map Prod.snd).getD {}

def mignore {α : Type} (x : M α) : M Unit := mbind x (fun _ => mpure ())

/-- Run a store operation and swallow its exception, like a caller wrapping
each call in `try {...} catch {}`. -/
def mtry {α : Type} (x : M α) : M Unit := mtryCatch (mignore x) (fun _ => mpure ())

/-- Run store operations in sequence. -/
def mseq (acts : List (M Unit)) : M Unit :=
  acts.foldl (fun acc a => mbind acc (fun _ => a)) (mpure ())

/-! ## Scenario environments and spec-side projections -/

/-- A chain `P → D1 → D2`: `P = atom(0)`, `D1 = atom(get => get(P))`,
`D2 = atom(get => get(D1))`. -/
def envChain : Env := fun i =>
  match i with
  | 0 => primitiveAtom 0 0
  | 1 => derivedAtom (.getThen 0 (fun v => .lit v))
  | 2 => derivedAtom (.getThen 1 (fun v => .lit v))
  | _ => derivedAtom (.throwE 99)

/-- `P = atom(-1)` and `D = atom(get => { const v = get(P); if (v < 0) throw e;
return v; })`. -/
def envSticky (e : Int) : Env := fun i =>
  match i with
  | 0 => primitiveAtom 0 (-1)
  | 1 => derivedAtom (.getThen 0 (fun v => if v < 0 then .throwE e else .lit v))
  | _ => derivedAtom (.throwE 99)

/-- `P = atom(1)`, `Q = atom(3)`, and `D = atom(get => { const v = get(P);
if (v < 0) throw 7; return get(Q); })`. -/
def envPartialDeps : Env := fun i =>
  match i with
  | 0 => primitiveAtom 0 1
  | 1 => primitiveAtom 1 3
  | 2 =>
      derivedAtom
        (.getThen 0 (fun v => if v < 0 then .throwE 7 else .getThen 1 (fun w => .lit w)))
  | _ => derivedAtom (.throwE 99)

/-- The diamond: `A = atom(0)`, `B1 = atom(get => get(A))`,
`B2 = atom(get => get(A))`, `C = atom(get => get(B1) + get(B2))`. -/
def envDiamond : Env := fun i =>
  match i with
  | 0 => primitiveAtom 0 0
  | 1 => derivedAtom (.getThen 0 (fun v => .lit v))
  | 2 => derivedAtom (.getThen 0 (fun v => .lit v))
  | 3 => derivedAtom (.getThen 1 (fun v1 => .getThen 2 (fun v2 => .lit (v1 + v2))))
  | _ => derivedAtom (.throwE 99)

/-- A lone primitive atom. -/
def envPrim : Env := fun i =>
  match i with
  | 0 => primitiveAtom 0 0
  | _ => derivedAtom (.throwE 99)

/-- `P = atom(0)`, `D = atom(get => get(P))`, and a write-only atom `W` whose
write function sets `P` to `5` and then throws `e`. -/
def envWriteThrow (e : Int) : Env := fun i =>
  match i with
  | 0 => primitiveAtom 0 0
  | 1 => derivedAtom (.getThen 0 (fun v => .lit v))
  | 2 => { read := .throwE 99, write := some (fun _ => .setThen 0 5 (.throwW e)) }
  | _ => derivedAtom (.throwE 99)

/-- The log entries one collected callback appends when invoked (spec-side
projection of `runTask`, used only to state theorems). -/
def taskLog (env : Env) : Task → List Nat
  | .listener (.log i) => [i]
  | .listener (.logThenThrow i _) => [i]
  | .unmountCb (.log i) => [i]
  | .unmountCb (.logThenThrow i _) => [i]
  | .mountCb a =>
      match (env a).onMount with
      | none => []
      | some spec => [spec.logId]

/-- The errors one collected callback raises when invoked (spec-side
projection of `runTask`, used only to state theorems). -/
def taskErrs (env : Env) : Task → List Err
  | .listener (.log _) => []
  | .listener (.logThenThrow _ c) => [.user c]
  | .unmountCb (.log _) => []
  | .unmountCb (.logThenThrow _ c) => [.user c]
  | .mountCb a =>
      match (env a).onMount with
      | none => []
      | some spec =>
          match spec.thenThrow with
          | some c => [.user c]
          | none => []

/-- All log entries a task list appends, in order. -/
def tasksLogAll (env : Env) : List Task → List Nat
  | [] => []
  | t :: rest => taskLog env t ++ tasksLogAll env rest

/-- All errors a task list raises, in order. -/
def tasksErrsAll (env : Env) : List Task → List Err
  | [] => []
  | t :: rest => taskErrs env t ++ tasksErrsAll env rest

/-- The result one collected callback produces when invoked: `ok`, or its
single raised error (spec-side companion of `taskErrs`). -/
def taskRes (env : Env) (t : Task) : Except Err Unit :=
  match taskErrs env t with
  | [] => .ok ()
  | e :: _ => .error e

/-- The effect of one collected callback on the mounted-record map: only a
succeeding `processOnMount` whose hook returns an unmount function changes
it (setting the `onUnmount` flag of the atom, if still mounted). -/
def taskMounted (env : Env) (t : Task)
    (mm : List (AtomId × MountedSt)) : List (AtomId × MountedSt) :=
  match t with
  | .mountCb a =>
      match (env a).onMount with
      | some spec =>
          match spec.thenThrow with
          | none =>
              if spec.retUnmount then
                jsMapUpdate mm a (fun m => { m with onUnmount := true })
              else mm
          | some _ => mm
      | none => mm
  | _ => mm

/-- A store holding a mounted primitive atom `0`, and a mounted atom `1`
with one listener that depends on it: a concrete input for the
mount/unmount theorems. -/
def mountedPairStore : StoreSt where
  atomStateMap :=
    [(0, { value := some 0, n := 1 }), (1, { value := some 0, deps := [(0, 1)], n := 1 })]
  mountedMap :=
    [(0, { dependents := [1] }), (1, { listeners := [.log 5], dependencies := [0] })]

/-- A store holding just an initialised primitive atom `0`, quiescent. -/
def primReadySt : StoreSt where
  atomStateMap := [(0, { value := some 0, n := 1 })]
  reads := [0]

/-! ### The chain scenario (C2) -/

/-- Initialise the chain bottom-up, then move `P` while nothing is mounted
(leaving `D1`'s cached state stale). -/
def chainSetup : M Unit :=
  mseq
    [ mtry (storeGet envChain 20 0)
    , mtry (storeGet envChain 20 1)
    , mtry (storeSet envChain 20 0 1) ]

/-- The store after `chainSetup`: `P = 1` but `D1` still caches `0`. -/
def chainSt : StoreSt where
  atomStateMap :=
    [(0, { value := some 1, n := 2 }), (1, { value := some 0, deps := [(0, 1)], n := 1 })]
  reads := [0, 1]
  getterLog := [(1, 0, 1)]

/-- After the first `get(D2)`: `D2` cached the stale `0`. -/
def chainSt2 : StoreSt where
  atomStateMap :=
    [ (0, { value := some 1, n := 2 })
    , (1, { value := some 0, deps := [(0, 1)], n := 1 })
    , (2, { value := some 0, deps := [(1, 1)], n := 1 }) ]
  reads := [0, 1, 2]
  getterLog := [(1, 0, 1), (2, 1, 1)]

/-- After the second `get(D2)`: everything recomputed to `1`. -/
def chainSt3 : StoreSt where
  atomStateMap :=
    [ (0, { value := some 1, n := 2 })
    , (1, { value := some 1, deps := [(0, 2)], n := 2 })
    , (2, { value := some 1, deps := [(1, 2)], n := 2 }) ]
  reads := [0, 1, 2, 1, 2]
  getterLog := [(1, 0, 1), (2, 1, 1), (1, 0, 2), (2, 1, 2)]

/-! ### The sticky-error scenario (C4, C5) -/

/-- Evaluate `P` and then `D` of `envSticky e` (whose read throws `e`). -/
def stickyRun (e : Int) : M Unit :=
  mseq [mtry (storeGet (envSticky e) 20 0), mtry (storeGet (envSticky e) 20 1)]

/-- The store after `stickyRun e`: the error `e` cached on `D`. -/
def stickyErrSt (e : Int) : StoreSt where
  atomStateMap :=
    [ (0, { value := some (-1), n := 1 })
    , (1, { error := some (.user e), deps := [(0, 1)], n := 1 }) ]
  reads := [0, 1]
  getterLog := [(1, 0, 1)]

/-- `stickyRun e`, then set `P` to `5` (making `D`'s read succeed later). -/
def stickyFixRun (e : Int) : M Unit :=
  mbind (stickyRun e) (fun _ => mtry (storeSet (envSticky e) 20 0 5))

/-- The store after `stickyFixRun e`: `P = 5`, `D` still caches the error. -/
def stickyFixedSt (e : Int) : StoreSt where
  atomStateMap :=
    [ (0, { value := some 5, n := 2 })
    , (1, { error := some (.user e), deps := [(0, 1)], n := 1 }) ]
  reads := [0, 1]
  getterLog := [(1, 0, 1)]

/-- The store after the final successful `get(D)` of the sticky scenario. -/
def stickyDoneSt : StoreSt where
  atomStateMap :=
    [ (0, { value := some 5, n := 2 })
    , (1, { value := some 5, deps := [(0, 2)], n := 2 }) ]
  reads := [0, 1, 1]
  getterLog := [(1, 0, 1), (1, 0, 2)]

/-- The store after `stickyRun 7` and `set(P, -2)`. -/
def sticky2St : StoreSt where
  atomStateMap :=
    [ (0, { value := some (-2), n := 2 })
    , (1, { error := some (.user 7), deps := [(0, 1)], n := 1 }) ]
  reads := [0, 1]
  getterLog := [(1, 0, 1)]

/-- The store after the further `get(D)` whose recompute throws again: the
epoch moved from 1 to 2 although the outcome stayed an error. -/
def sticky3St : StoreSt where
  atomStateMap :=
    [ (0, { value := some (-2), n := 2 })
    , (1, { error := some (.user 7), deps := [(0, 2)], n := 2 }) ]
  reads := [0, 1, 1]
  getterLog := [(1, 0, 1), (1, 0, 2)]

/-! ### The partial-dependencies scenario (C6) -/

/-- Evaluate `P`, `Q`, `D` of `envPartialDeps` (a successful evaluation of
`D` reads both `P` and `Q`). -/
def partialSetup : M Unit :=
  mseq
    [ mtry (storeGet envPartialDeps 30 0)
    , mtry (storeGet envPartialDeps 30 1)
    , mtry (storeGet envPartialDeps 30 2) ]

/-- The store after `partialSetup`. -/
def partialSt : StoreSt where
  atomStateMap :=
    [ (0, { value := some 1, n := 1 })
    , (1, { value := some 3, n := 1 })
    , (2, { value := some 3, deps := [(0, 1), (1, 1)], n := 1 }) ]
  reads := [0, 1, 2]
  getterLog := [(2, 0, 1), (2, 1, 1)]

/-- After `set(P, -5)`. -/
def partial2St : StoreSt where
  atomStateMap :=
    [ (0, { value := some (-5), n := 2 })
    , (1, { value := some 3, n := 1 })
    , (2, { value := some 3, deps := [(0, 1), (1, 1)], n := 1 }) ]
  reads := [0, 1, 2]
  getterLog := [(2, 0, 1), (2, 1, 1)]

/-- After the `get(D)` whose recompute throws having read only `P`. -/
def partial3St : StoreSt where
  atomStateMap :=
    [ (0, { value := some (-5), n := 2 })
    , (1, { value := some 3, n := 1 })
    , (2, { error := some (.user 7), deps := [(0, 2)], n := 2 }) ]
  reads := [0, 1, 2, 2]
  getterLog := [(2, 0, 1), (2, 1, 1), (2, 0, 2)]

/-- `partialSetup`, then make `P` negative and re-read `D` (whose recompute
now throws after reading only `P`). -/
def partialAfter : M Unit :=
  mbind partialSetup
    (fun _ =>
      mseq
        [ mtry (storeSet envPartialDeps 30 0 (-5))
        , mtry (storeGet envPartialDeps 30 2) ])

/-! ### The diamond scenario (C1) -/

/-- Initialise the diamond bottom-up with four reads. -/
def diamondInit : M Unit :=
  mseq
    [ mtry (storeGet envDiamond 30 0)
    , mtry (storeGet envDiamond 30 1)
    , mtry (storeGet envDiamond 30 2)
    , mtry (storeGet envDiamond 30 3) ]

/-- The store after `diamondInit`: all four atoms cached, nothing mounted. -/
def diamondInitSt : StoreSt where
  atomStateMap :=
    [ (0, { value := some 0, n := 1 })
    , (1, { value := some 0, deps := [(0, 1)], n := 1 })
    , (2, { value := some 0, deps := [(0, 1)], n := 1 })
    , (3, { value := some 0, deps := [(1, 1), (2, 1)], n := 1 }) ]
  reads := [0, 1, 2, 3]
  getterLog := [(1, 0, 1), (2, 0, 1), (3, 1, 1), (3, 2, 1)]

/-- Initialise the diamond and subscribe a listener to `C`. -/
def diamondSetup : M Unit :=
  mbind diamondInit (fun _ => storeSub envDiamond 30 3 (.log 100))

/-- The diamond store after `diamondSetup`: every atom cached at value `0`,
all four mounted, `C` carrying the listener. -/
def diamondSt : StoreSt where
  atomStateMap :=
    [ (0, { value := some 0, n := 1 })
    , (1, { value := some 0, deps := [(0, 1)], n := 1 })
    , (2, { value := some 0, deps := [(0, 1)], n := 1 })
    , (3, { value := some 0, deps := [(1, 1), (2, 1)], n := 1 }) ]
  mountedMap :=
    [ (0, { dependents := [1, 2] })
    , (1, { dependencies := [0], dependents := [3] })
    , (2, { dependencies := [0], dependents := [3] })
    , (3, { listeners := [.log 100], dependencies := [1, 2] }) ]
  reads := [0, 1, 2, 3]
  getterLog := [(1, 0, 1), (2, 0, 1), (3, 1, 1), (3, 2, 1)]

/-- The diamond store after `set(A, x)` from `diamondSt`: `B1`, `B2` and
`C` each recomputed once (in that order), the listener delivered once. -/
def diamondAfterSt (x : Value) : StoreSt where
  atomStateMap :=
    [ (0, { value := some x, n := 2 })
    , (1, { value := some x, deps := [(0, 2)], n := 2 })
    , (2, { value := some x, deps := [(0, 2)], n := 2 })
    , (3, { value := some (x + x), deps := [(1, 2), (2, 2)], n := 2 }) ]
  mountedMap :=
    [ (0, { dependents := [1, 2] })
    , (1, { dependencies := [0], dependents := [3] })
    , (2, { dependencies := [0], dependents := [3] })
    , (3, { listeners := [.log 100], dependencies := [1, 2] }) ]
  reads := [0, 1, 2, 3, 1, 2, 3]
  getterLog :=
    [ (1, 0, 1), (2, 0, 1), (3, 1, 1), (3, 2, 1)
    , (1, 0, 2), (2, 0, 2), (3, 1, 2), (3, 2, 2) ]
  log := [100]

/-! ### The mounted-primitive scenario (C8) -/

/-- The store after subscribing the listener `300` to the primitive `P` of
`envPrim`: mounted, with all pending mount callbacks already flushed. -/
def primSubSt : StoreSt where
  atomStateMap := [(0, { value := some 0, n := 1 })]
  mountedMap := [(0, { listeners := [.log 300] })]
  reads := [0]

/-! ### The throwing-write scenario (C10) -/

/-- Initialise `P` and `D` of `envWriteThrow e` and subscribe a listener to
`D`. -/
def writeThrowSetup (e : Int) : M Unit :=
  mseq
    [ mtry (storeGet (envWriteThrow e) 30 0)
    , mtry (storeGet (envWriteThrow e) 30 1)
    , storeSub (envWriteThrow e) 30 1 (.log 200) ]

/-- The store after `writeThrowSetup e`. -/
def wSubSt : StoreSt where
  atomStateMap :=
    [(0, { value := some 0, n := 1 }), (1, { value := some 0, deps := [(0, 1)], n := 1 })]
  mountedMap :=
    [(0, { dependents := [1] }), (1, { listeners := [.log 200], dependencies := [0] })]
  reads := [0, 1]
  getterLog := [(1, 0, 1)]

/-- The store after `set(W)` from `wSubSt`: `P = 5`, `D` recomputed to `5`,
the listener delivered — and the write function's own error propagated. -/
def wAfterSt : StoreSt where
  atomStateMap :=
    [(0, { value := some 5, n := 2 }), (1, { value := some 5, deps := [(0, 2)], n := 2 })]
  mountedMap :=
    [(0, { dependents := [1] }), (1, { listeners := [.log 200], dependencies := [0] })]
  reads := [0, 1, 1]
  getterLog := [(1, 0, 1), (1, 0, 2)]
  log := [200]


/-! ## Generic lemmas about the collection helpers -/

theorem jsMapUpdate_not_mem {α : Type} (m : List (Nat × α)) (k : Nat)
    (f : α → α) (h : k ∉ m.map Prod.fst) : jsMapUpdate m k f = m := by
  induction m with
  | nil => rfl
  | cons p rest ih =>
      obtain ⟨k1, v1⟩ := p
      simp only [List.map_cons, List.mem_cons] at h
      push_neg at h
      have hk : ¬ k1 = k := fun hh => h.1 hh.symm
      simp [jsMapUpdate, hk, ih h.2]

theorem jsMapUpdate_self {α : Type} (m : List (Nat × α)) (k : Nat)
    (f : α → α) (a : α) (hnd : (m.map Prod.fst).Nodup)
    (hl : jsLookup m k = some a) (hf : f a = a) : jsMapUpdate m k f = m := by
  induction m with
  | nil => rfl
  | cons p rest ih =>
      obtain ⟨k1, v1⟩ := p
      simp only [List.map_cons, List.nodup_cons] at hnd
      by_cases hk : k1 = k
      · subst hk
        simp [jsLookup] at hl
        subst hl
        simp [jsMapUpdate, hf, jsMapUpdate_not_mem rest k1 f hnd.1]
      · simp [jsLookup, hk] at hl
        simp [jsMapUpdate, hk, ih hnd.2 hl]

theorem jsLookup_jsMapDelete_self {α : Type} (m : List (Nat × α)) (k : Nat) :
    jsLookup (jsMapDelete m k) k = none := by
  induction m with
  | nil => rfl
  | cons p rest ih =>
      by_cases hk : p.1 = k
      · simpa [jsMapDelete, hk] using ih
      · simpa [jsMapDelete, jsLookup, hk] using ih

theorem jsLookup_jsMapUpdate_none {α : Type} (m : List (Nat × α))
    (k j : Nat) (f : α → α) (h : jsLookup m j = none) :
    jsLookup (jsMapUpdate m k f) j = none := by
  induction m with
  | nil => rfl
  | cons p rest ih =>
      obtain ⟨k1, v1⟩ := p
      by_cases hj : k1 = j
      · simp [jsLookup, hj] at h
      · simp only [jsLookup, if_neg hj] at h
        by_cases hk : k1 = k
        · subst hk
          simp [jsMapUpdate, jsLookup, hj, ih h]
        · simp [jsMapUpdate, jsLookup, hj, hk, ih h]

theorem jsLookup_jsMapDelete_none {α : Type} (m : List (Nat × α))
    (k j : Nat) (h : jsLookup m j = none) :
    jsLookup (jsMapDelete m k) j = none := by
  induction m with
  | nil => rfl
  | cons p rest ih =>
      obtain ⟨k1, v1⟩ := p
      simp only [jsLookup] at h
      by_cases hj : k1 = j
      · simp [hj] at h
      · by_cases hk : k1 ≠ k <;>
          simp_all [jsMapDelete, jsLookup, hj, hk]

theorem jsLookup_jsMapUpdate_some {α : Type} (m : List (Nat × α))
    (k : Nat) (f : α → α) (a : α) (h : jsLookup m k = some a) :
    jsLookup (jsMapUpdate m k f) k = some (f a) := by
  induction m with
  | nil => simp [jsLookup] at h
  | cons p rest ih =>
      obtain ⟨k1, v1⟩ := p
      by_cases hk : k1 = k
      · subst hk
        simp [jsLookup] at h
        subst h
        simp [jsMapUpdate, jsLookup]
      · simp [jsLookup, hk] at h
        simp [jsMapUpdate, jsLookup, hk, ih h]

theorem jsLookup_jsMapUpdate_ne {α : Type} (m : List (Nat × α))
    (k j : Nat) (f : α → α) (h : k ≠ j) :
    jsLookup (jsMapUpdate m k f) j = jsLookup m j := by
  induction m with
  | nil => rfl
  | cons p rest ih =>
      obtain ⟨k1, v1⟩ := p
      by_cases hk : k1 = k
      · subst hk
        have hj : ¬ k1 = j := h
        simp [jsMapUpdate, jsLookup, hj, ih]
      · by_cases hj : k1 = j
        · subst hj
          have hjk : ¬ k1 = k := hk
          simp [jsMapUpdate, jsLookup, hjk, jsLookup, ih]
        · simp [jsMapUpdate, jsLookup, hk, hj, ih]

theorem jsLookup_jsMapSet_ne {α : Type} (m : List (Nat × α))
    (k j : Nat) (v : α) (h : k ≠ j) :
    jsLookup (jsMapSet m k v) j = jsLookup m j := by
  induction m with
  | nil => simp [jsMapSet, jsLookup, h]
  | cons p rest ih =>
      obtain ⟨k1, v1⟩ := p
      by_cases hk : k1 = k
      · subst hk
        have hj : ¬ k1 = j := h
        simp [jsMapSet, jsLookup, hj]
      · simp only [jsMapSet, if_neg hk]
        by_cases hj : k1 = j <;> simp [jsLookup, hj, ih]

/-! ## C5: epoch bumping -/

/-- C5 (amended): on every evaluation the epoch `n` is monotone, and it is
bumped exactly when no previous value existed or the newly computed value
differs from the previous one by `Object.is`; a recompute yielding an
identical value never bumps.  However, a *throwing* evaluation always bumps
the epoch, even when the previous outcome was already an error (the source
comments "an error is always treated as a change"), not only on
success/error transitions. -/
theorem epoch_bump_characterization :
    ∀ (st : AtomSt) (v : Value) (e : Err),
      ((st.setValue v).n =
        match st.value with
        | some prev => if prev = v then st.n else st.n + 1
        | none => st.n + 1) ∧
      (st.setError e).n = st.n + 1 ∧
      st.n ≤ (st.setValue v).n ∧ st.n ≤ (st.setError e).n := by
  intro st v e
  refine ⟨?_, rfl, ?_, ?_⟩
  · cases h : st.value with
    | none => simp [AtomSt.setValue, h]
    | some prev =>
        by_cases hv : prev = v <;> simp [AtomSt.setValue, h, hv]
  · cases h : st.value with
    | none => simp [AtomSt.setValue, h]
    | some prev =>
        by_cases hv : prev = v <;> simp [AtomSt.setValue, h, hv]
  · simp [AtomSt.setError]

/-! ## C8: mountAtom on an already-mounted atom -/

/-- C8 (amended): when an atom is already mounted, `mountAtom` returns the
existing mounted record and leaves the atom states, the mounted map (hence
all dependency/dependent edges) and everything else unchanged — except that
for a writable atom it enqueues a fresh `processOnMount` callback again, so
the pending lifecycle work does change. -/
theorem mountAtom_mounted_idempotent :
    ∀ (env : Env) (f : Nat) (s : StoreSt) (i : AtomId) (st : AtomSt)
      (m : MountedSt),
      jsLookup s.atomStateMap i = some st →
      jsLookup s.mountedMap i = some m →
      mountAtom env (f + 1) i s =
        some (.ok m,
          if (env i).write.isSome then
            { s with mountCallbacks := s.mountCallbacks ++ [i] }
          else s) := by
  intro env f s i st m hst hm
  by_cases hw : (env i).write.isSome <;>
    simp [mountAtom, ensureAtomState, mbind, mpure, mget, mmodify,
      StoreSt.mountedOf, hst, hm, hw]


/-- One applied step of the flush loop, used as the rewrite rule for
executions (the unapplied recursive occurrence inside the loop body must not
be unfolded eagerly). -/
theorem flushLoop_succ (env : Env) (fuel : Nat) (errs : List Err) (s : StoreSt) :
    flushLoop env (fuel + 1) errs s =
      (let (tasks, s1) := collectTasks s
       let (errs1, s2) := runCalls env tasks errs s1
       (mbind
          (if s2.changedAtoms ≠ [] then recomputeInvalidatedAtoms env fuel
           else mpure ())
          fun _ =>
        mbind mget fun s3 =>
        if s3.changedAtoms ≠ [] ∨ s3.unmountCallbacks ≠ [] ∨
           s3.mountCallbacks ≠ [] then
          flushLoop env fuel errs1
        else mpure errs1) s2) := rfl

/-! ## Run lemmas for the concrete scenarios

Each lemma executes one or a few store operations from a checkpoint state
and lands exactly on the next checkpoint literal. -/

set_option maxHeartbeats 4000000 in
theorem chainSetup_run : chainSetup {} = some (.ok (), chainSt) := by
  simp only [chainSetup, envChain, chainSt, mseq, mtry, mignore, mbind, mpure, mthrow, mfail, mtryCatch, mtryFinally,
    liftExcept, mmodify, mget, ensureAtomState, getAtomSt, updAtomSt, updMounted,
    setAtomStateValue, AtomSt.setValue, AtomSt.setError, returnAtomValuePure,
    isAtomStateInitialized, jsLookup, jsMapSet, jsMapDelete, jsMapUpdate, jsSetAdd,
    jsSetDelete, StoreSt.stateOf, StoreSt.mountedOf, getMountedDependents,
    evalRead, getterRead, recomputeAtomState, readAtomState, readDepsUnchanged,
    invalidateLoop, invalidateDependents, topoLoop, recomputeList,
    recomputeInvalidatedAtoms, mountAtom, mountDepsList, mountDepsPairs,
    mountDependencies, writeAtomState, evalWrite, setterCall, unmountAtom,
    unmountDepsList, collectTasks, runTask, runCalls, flushLoop_succ, flushCallbacks,
    storeGet, storeSet, storeSub, runOut, runState, primitiveAtom, derivedAtom,
    List.foldl_cons, List.foldl_nil, List.map_cons, List.map_nil,
    List.filter_cons, List.filter_nil, List.mem_cons, List.mem_singleton,
    List.not_mem_nil, List.any_cons, List.any_nil, List.cons_append,
    List.nil_append, List.append_nil, List.reverse_cons, List.reverse_nil,
    Option.map_some, Option.map_none, Option.getD_some, Option.getD_none,
    Option.isSome_some, Option.isSome_none, reduceIte, Nat.reduceAdd,
    Nat.reduceEqDiff, Int.reduceLT, Int.reduceEq, Int.reduceNeg, Int.reduceAdd,
    reduceCtorEq, ne_eq, not_false_iff, not_true, and_true, true_and, and_false,
    false_and, or_true, true_or, or_false, false_or, and_self, or_self,
    decide_eq_true_eq, Option.some.injEq, Prod.mk.injEq, if_true, if_false,
    Bool.or_self, Bool.or_false, Bool.false_or, Bool.or_true, Bool.true_or,
    Bool.and_self, Bool.and_false, Bool.false_and, Bool.and_true, Bool.true_and,
    Bool.false_eq_true, Bool.true_eq_false, Bool.and_eq_true, Bool.or_eq_true,
    decide_not, Bool.not_eq_true, not_false_eq_true, not_true_eq_false,
    eq_self_iff_true,
    Option.isNone_some, Option.isNone_none, id_eq, Option.map_none', Option.map_some', decide_False, decide_True, Bool.not_false, Bool.not_true]

set_option maxHeartbeats 4000000 in
theorem chainGet2_first : storeGet envChain 20 2 chainSt = some (.ok 0, chainSt2) := by
  simp only [envChain, chainSt, chainSt2, mseq, mtry, mignore, mbind, mpure, mthrow, mfail, mtryCatch, mtryFinally,
    liftExcept, mmodify, mget, ensureAtomState, getAtomSt, updAtomSt, updMounted,
    setAtomStateValue, AtomSt.setValue, AtomSt.setError, returnAtomValuePure,
    isAtomStateInitialized, jsLookup, jsMapSet, jsMapDelete, jsMapUpdate, jsSetAdd,
    jsSetDelete, StoreSt.stateOf, StoreSt.mountedOf, getMountedDependents,
    evalRead, getterRead, recomputeAtomState, readAtomState, readDepsUnchanged,
    invalidateLoop, invalidateDependents, topoLoop, recomputeList,
    recomputeInvalidatedAtoms, mountAtom, mountDepsList, mountDepsPairs,
    mountDependencies, writeAtomState, evalWrite, setterCall, unmountAtom,
    unmountDepsList, collectTasks, runTask, runCalls, flushLoop_succ, flushCallbacks,
    storeGet, storeSet, storeSub, runOut, runState, primitiveAtom, derivedAtom,
    List.foldl_cons, List.foldl_nil, List.map_cons, List.map_nil,
    List.filter_cons, List.filter_nil, List.mem_cons, List.mem_singleton,
    List.not_mem_nil, List.any_cons, List.any_nil, List.cons_append,
    List.nil_append, List.append_nil, List.reverse_cons, List.reverse_nil,
    Option.map_some, Option.map_none, Option.getD_some, Option.getD_none,
    Option.isSome_some, Option.isSome_none, reduceIte, Nat.reduceAdd,
    Nat.reduceEqDiff, Int.reduceLT, Int.reduceEq, Int.reduceNeg, Int.reduceAdd,
    reduceCtorEq, ne_eq, not_false_iff, not_true, and_true, true_and, and_false,
    false_and, or_true, true_or, or_false, false_or, and_self, or_self,
    decide_eq_true_eq, Option.some.injEq, Prod.mk.injEq, if_true, if_false,
    Bool.or_self, Bool.or_false, Bool.false_or, Bool.or_true, Bool.true_or,
    Bool.and_self, Bool.and_false, Bool.false_and, Bool.and_true, Bool.true_and,
    Bool.false_eq_true, Bool.true_eq_false, Bool.and_eq_true, Bool.or_eq_true,
    decide_not, Bool.not_eq_true, not_false_eq_true, not_true_eq_false,
    eq_self_iff_true,
    Option.isNone_some, Option.isNone_none, id_eq, Option.map_none', Option.map_some', decide_False, decide_True, Bool.not_false, Bool.not_true]

set_option maxHeartbeats 4000000 in
theorem chainGet2_second : storeGet envChain 20 2 chainSt2 = some (.ok 1, chainSt3) := by
  simp only [envChain, chainSt2, chainSt3, mseq, mtry, mignore, mbind, mpure, mthrow, mfail, mtryCatch, mtryFinally,
    liftExcept, mmodify, mget, ensureAtomState, getAtomSt, updAtomSt, updMounted,
    setAtomStateValue, AtomSt.setValue, AtomSt.setError, returnAtomValuePure,
    isAtomStateInitialized, jsLookup, jsMapSet, jsMapDelete, jsMapUpdate, jsSetAdd,
    jsSetDelete, StoreSt.stateOf, StoreSt.mountedOf, getMountedDependents,
    evalRead, getterRead, recomputeAtomState, readAtomState, readDepsUnchanged,
    invalidateLoop, invalidateDependents, topoLoop, recomputeList,
    recomputeInvalidatedAtoms, mountAtom, mountDepsList, mountDepsPairs,
    mountDependencies, writeAtomState, evalWrite, setterCall, unmountAtom,
    unmountDepsList, collectTasks, runTask, runCalls, flushLoop_succ, flushCallbacks,
    storeGet, storeSet, storeSub, runOut, runState, primitiveAtom, derivedAtom,
    List.foldl_cons, List.foldl_nil, List.map_cons, List.map_nil,
    List.filter_cons, List.filter_nil, List.mem_cons, List.mem_singleton,
    List.not_mem_nil, List.any_cons, List.any_nil, List.cons_append,
    List.nil_append, List.append_nil, List.reverse_cons, List.reverse_nil,
    Option.map_some, Option.map_none, Option.getD_some, Option.getD_none,
    Option.isSome_some, Option.isSome_none, reduceIte, Nat.reduceAdd,
    Nat.reduceEqDiff, Int.reduceLT, Int.reduceEq, Int.reduceNeg, Int.reduceAdd,
    reduceCtorEq, ne_eq, not_false_iff, not_true, and_true, true_and, and_false,
    false_and, or_true, true_or, or_false, false_or, and_self, or_self,
    decide_eq_true_eq, Option.some.injEq, Prod.mk.injEq, if_true, if_false,
    Bool.or_self, Bool.or_false, Bool.false_or, Bool.or_true, Bool.true_or,
    Bool.and_self, Bool.and_false, Bool.false_and, Bool.and_true, Bool.true_and,
    Bool.false_eq_true, Bool.true_eq_false, Bool.and_eq_true, Bool.or_eq_true,
    decide_not, Bool.not_eq_true, not_false_eq_true, not_true_eq_false,
    eq_self_iff_true,
    Option.isNone_some, Option.isNone_none, id_eq, Option.map_none', Option.map_some', decide_False, decide_True, Bool.not_false, Bool.not_true]

set_option maxHeartbeats 4000000 in
theorem stickyRun_run (e : Int) : stickyRun e {} = some (.ok (), stickyErrSt e) := by
  simp only [stickyRun, envSticky, stickyErrSt, mseq, mtry, mignore, mbind, mpure, mthrow, mfail, mtryCatch, mtryFinally,
    liftExcept, mmodify, mget, ensureAtomState, getAtomSt, updAtomSt, updMounted,
    setAtomStateValue, AtomSt.setValue, AtomSt.setError, returnAtomValuePure,
    isAtomStateInitialized, jsLookup, jsMapSet, jsMapDelete, jsMapUpdate, jsSetAdd,
    jsSetDelete, StoreSt.stateOf, StoreSt.mountedOf, getMountedDependents,
    evalRead, getterRead, recomputeAtomState, readAtomState, readDepsUnchanged,
    invalidateLoop, invalidateDependents, topoLoop, recomputeList,
    recomputeInvalidatedAtoms, mountAtom, mountDepsList, mountDepsPairs,
    mountDependencies, writeAtomState, evalWrite, setterCall, unmountAtom,
    unmountDepsList, collectTasks, runTask, runCalls, flushLoop_succ, flushCallbacks,
    storeGet, storeSet, storeSub, runOut, runState, primitiveAtom, derivedAtom,
    List.foldl_cons, List.foldl_nil, List.map_cons, List.map_nil,
    List.filter_cons, List.filter_nil, List.mem_cons, List.mem_singleton,
    List.not_mem_nil, List.any_cons, List.any_nil, List.cons_append,
    List.nil_append, List.append_nil, List.reverse_cons, List.reverse_nil,
    Option.map_some, Option.map_none, Option.getD_some, Option.getD_none,
    Option.isSome_some, Option.isSome_none, reduceIte, Nat.reduceAdd,
    Nat.reduceEqDiff, Int.reduceLT, Int.reduceEq, Int.reduceNeg, Int.reduceAdd,
    reduceCtorEq, ne_eq, not_false_iff, not_true, and_true, true_and, and_false,
    false_and, or_true, true_or, or_false, false_or, and_self, or_self,
    decide_eq_true_eq, Option.some.injEq, Prod.mk.injEq, if_true, if_false,
    Bool.or_self, Bool.or_false, Bool.false_or, Bool.or_true, Bool.true_or,
    Bool.and_self, Bool.and_false, Bool.false_and, Bool.and_true, Bool.true_and,
    Bool.false_eq_true, Bool.true_eq_false, Bool.and_eq_true, Bool.or_eq_true,
    decide_not, Bool.not_eq_true, not_false_eq_true, not_true_eq_false,
    eq_self_iff_true,
    Option.isNone_some, Option.isNone_none, id_eq, Option.map_none', Option.map_some', decide_False, decide_True, Bool.not_false, Bool.not_true]

set_option maxHeartbeats 4000000 in
theorem stickyReget_run (e : Int) :
    storeGet (envSticky e) 20 1 (stickyErrSt e) =
      some (.error (.user e), stickyErrSt e) := by
  simp only [envSticky, stickyErrSt, mseq, mtry, mignore, mbind, mpure, mthrow, mfail, mtryCatch, mtryFinally,
    liftExcept, mmodify, mget, ensureAtomState, getAtomSt, updAtomSt, updMounted,
    setAtomStateValue, AtomSt.setValue, AtomSt.setError, returnAtomValuePure,
    isAtomStateInitialized, jsLookup, jsMapSet, jsMapDelete, jsMapUpdate, jsSetAdd,
    jsSetDelete, StoreSt.stateOf, StoreSt.mountedOf, getMountedDependents,
    evalRead, getterRead, recomputeAtomState, readAtomState, readDepsUnchanged,
    invalidateLoop, invalidateDependents, topoLoop, recomputeList,
    recomputeInvalidatedAtoms, mountAtom, mountDepsList, mountDepsPairs,
    mountDependencies, writeAtomState, evalWrite, setterCall, unmountAtom,
    unmountDepsList, collectTasks, runTask, runCalls, flushLoop_succ, flushCallbacks,
    storeGet, storeSet, storeSub, runOut, runState, primitiveAtom, derivedAtom,
    List.foldl_cons, List.foldl_nil, List.map_cons, List.map_nil,
    List.filter_cons, List.filter_nil, List.mem_cons, List.mem_singleton,
    List.not_mem_nil, List.any_cons, List.any_nil, List.cons_append,
    List.nil_append, List.append_nil, List.reverse_cons, List.reverse_nil,
    Option.map_some, Option.map_none, Option.getD_some, Option.getD_none,
    Option.isSome_some, Option.isSome_none, reduceIte, Nat.reduceAdd,
    Nat.reduceEqDiff, Int.reduceLT, Int.reduceEq, Int.reduceNeg, Int.reduceAdd,
    reduceCtorEq, ne_eq, not_false_iff, not_true, and_true, true_and, and_false,
    false_and, or_true, true_or, or_false, false_or, and_self, or_self,
    decide_eq_true_eq, Option.some.injEq, Prod.mk.injEq, if_true, if_false,
    Bool.or_self, Bool.or_false, Bool.false_or, Bool.or_true, Bool.true_or,
    Bool.and_self, Bool.and_false, Bool.false_and, Bool.and_true, Bool.true_and,
    Bool.false_eq_true, Bool.true_eq_false, Bool.and_eq_true, Bool.or_eq_true,
    decide_not, Bool.not_eq_true, not_false_eq_true, not_true_eq_false,
    eq_self_iff_true,
    Option.isNone_some, Option.isNone_none, id_eq, Option.map_none', Option.map_some', decide_False, decide_True, Bool.not_false, Bool.not_true]

set_option maxHeartbeats 4000000 in
theorem stickySet_run (e : Int) :
    storeSet (envSticky e) 20 0 5 (stickyErrSt e) =
      some (.ok (), stickyFixedSt e) := by
  simp only [envSticky, stickyErrSt, stickyFixedSt, mseq, mtry, mignore, mbind, mpure, mthrow, mfail, mtryCatch, mtryFinally,
    liftExcept, mmodify, mget, ensureAtomState, getAtomSt, updAtomSt, updMounted,
    setAtomStateValue, AtomSt.setValue, AtomSt.setError, returnAtomValuePure,
    isAtomStateInitialized, jsLookup, jsMapSet, jsMapDelete, jsMapUpdate, jsSetAdd,
    jsSetDelete, StoreSt.stateOf, StoreSt.mountedOf, getMountedDependents,
    evalRead, getterRead, recomputeAtomState, readAtomState, readDepsUnchanged,
    invalidateLoop, invalidateDependents, topoLoop, recomputeList,
    recomputeInvalidatedAtoms, mountAtom, mountDepsList, mountDepsPairs,
    mountDependencies, writeAtomState, evalWrite, setterCall, unmountAtom,
    unmountDepsList, collectTasks, runTask, runCalls, flushLoop_succ, flushCallbacks,
    storeGet, storeSet, storeSub, runOut, runState, primitiveAtom, derivedAtom,
    List.foldl_cons, List.foldl_nil, List.map_cons, List.map_nil,
    List.filter_cons, List.filter_nil, List.mem_cons, List.mem_singleton,
    List.not_mem_nil, List.any_cons, List.any_nil, List.cons_append,
    List.nil_append, List.append_nil, List.reverse_cons, List.reverse_nil,
    Option.map_some, Option.map_none, Option.getD_some, Option.getD_none,
    Option.isSome_some, Option.isSome_none, reduceIte, Nat.reduceAdd,
    Nat.reduceEqDiff, Int.reduceLT, Int.reduceEq, Int.reduceNeg, Int.reduceAdd,
    reduceCtorEq, ne_eq, not_false_iff, not_true, and_true, true_and, and_false,
    false_and, or_true, true_or, or_false, false_or, and_self, or_self,
    decide_eq_true_eq, Option.some.injEq, Prod.mk.injEq, if_true, if_false,
    Bool.or_self, Bool.or_false, Bool.false_or, Bool.or_true, Bool.true_or,
    Bool.and_self, Bool.and_false, Bool.false_and, Bool.and_true, Bool.true_and,
    Bool.false_eq_true, Bool.true_eq_false, Bool.and_eq_true, Bool.or_eq_true,
    decide_not, Bool.not_eq_true, not_false_eq_true, not_true_eq_false,
    eq_self_iff_true,
    Option.isNone_some, Option.isNone_none, id_eq, Option.map_none', Option.map_some', decide_False, decide_True, Bool.not_false, Bool.not_true]

set_option maxHeartbeats 4000000 in
theorem stickyFinalGet_run (e : Int) :
    storeGet (envSticky e) 20 1 (stickyFixedSt e) =
      some (.ok 5, stickyDoneSt) := by
  simp only [envSticky, stickyFixedSt, stickyDoneSt, mseq, mtry, mignore, mbind, mpure, mthrow, mfail, mtryCatch, mtryFinally,
    liftExcept, mmodify, mget, ensureAtomState, getAtomSt, updAtomSt, updMounted,
    setAtomStateValue, AtomSt.setValue, AtomSt.setError, returnAtomValuePure,
    isAtomStateInitialized, jsLookup, jsMapSet, jsMapDelete, jsMapUpdate, jsSetAdd,
    jsSetDelete, StoreSt.stateOf, StoreSt.mountedOf, getMountedDependents,
    evalRead, getterRead, recomputeAtomState, readAtomState, readDepsUnchanged,
    invalidateLoop, invalidateDependents, topoLoop, recomputeList,
    recomputeInvalidatedAtoms, mountAtom, mountDepsList, mountDepsPairs,
    mountDependencies, writeAtomState, evalWrite, setterCall, unmountAtom,
    unmountDepsList, collectTasks, runTask, runCalls, flushLoop_succ, flushCallbacks,
    storeGet, storeSet, storeSub, runOut, runState, primitiveAtom, derivedAtom,
    List.foldl_cons, List.foldl_nil, List.map_cons, List.map_nil,
    List.filter_cons, List.filter_nil, List.mem_cons, List.mem_singleton,
    List.not_mem_nil, List.any_cons, List.any_nil, List.cons_append,
    List.nil_append, List.append_nil, List.reverse_cons, List.reverse_nil,
    Option.map_some, Option.map_none, Option.getD_some, Option.getD_none,
    Option.isSome_some, Option.isSome_none, reduceIte, Nat.reduceAdd,
    Nat.reduceEqDiff, Int.reduceLT, Int.reduceEq, Int.reduceNeg, Int.reduceAdd,
    reduceCtorEq, ne_eq, not_false_iff, not_true, and_true, true_and, and_false,
    false_and, or_true, true_or, or_false, false_or, and_self, or_self,
    decide_eq_true_eq, Option.some.injEq, Prod.mk.injEq, if_true, if_false,
    Bool.or_self, Bool.or_false, Bool.false_or, Bool.or_true, Bool.true_or,
    Bool.and_self, Bool.and_false, Bool.false_and, Bool.and_true, Bool.true_and,
    Bool.false_eq_true, Bool.true_eq_false, Bool.and_eq_true, Bool.or_eq_true,
    decide_not, Bool.not_eq_true, not_false_eq_true, not_true_eq_false,
    eq_self_iff_true,
    Option.isNone_some, Option.isNone_none, id_eq, Option.map_none', Option.map_some', decide_False, decide_True, Bool.not_false, Bool.not_true]

set_option maxHeartbeats 4000000 in
theorem stickySetNeg_run :
    storeSet (envSticky 7) 20 0 (-2) (stickyErrSt 7) =
      some (.ok (), sticky2St) := by
  simp only [envSticky, stickyErrSt, sticky2St, mseq, mtry, mignore, mbind, mpure, mthrow, mfail, mtryCatch, mtryFinally,
    liftExcept, mmodify, mget, ensureAtomState, getAtomSt, updAtomSt, updMounted,
    setAtomStateValue, AtomSt.setValue, AtomSt.setError, returnAtomValuePure,
    isAtomStateInitialized, jsLookup, jsMapSet, jsMapDelete, jsMapUpdate, jsSetAdd,
    jsSetDelete, StoreSt.stateOf, StoreSt.mountedOf, getMountedDependents,
    evalRead, getterRead, recomputeAtomState, readAtomState, readDepsUnchanged,
    invalidateLoop, invalidateDependents, topoLoop, recomputeList,
    recomputeInvalidatedAtoms, mountAtom, mountDepsList, mountDepsPairs,
    mountDependencies, writeAtomState, evalWrite, setterCall, unmountAtom,
    unmountDepsList, collectTasks, runTask, runCalls, flushLoop_succ, flushCallbacks,
    storeGet, storeSet, storeSub, runOut, runState, primitiveAtom, derivedAtom,
    List.foldl_cons, List.foldl_nil, List.map_cons, List.map_nil,
    List.filter_cons, List.filter_nil, List.mem_cons, List.mem_singleton,
    List.not_mem_nil, List.any_cons, List.any_nil, List.cons_append,
    List.nil_append, List.append_nil, List.reverse_cons, List.reverse_nil,
    Option.map_some, Option.map_none, Option.getD_some, Option.getD_none,
    Option.isSome_some, Option.isSome_none, reduceIte, Nat.reduceAdd,
    Nat.reduceEqDiff, Int.reduceLT, Int.reduceEq, Int.reduceNeg, Int.reduceAdd,
    reduceCtorEq, ne_eq, not_false_iff, not_true, and_true, true_and, and_false,
    false_and, or_true, true_or, or_false, false_or, and_self, or_self,
    decide_eq_true_eq, Option.some.injEq, Prod.mk.injEq, if_true, if_false,
    Bool.or_self, Bool.or_false, Bool.false_or, Bool.or_true, Bool.true_or,
    Bool.and_self, Bool.and_false, Bool.false_and, Bool.and_true, Bool.true_and,
    Bool.false_eq_true, Bool.true_eq_false, Bool.and_eq_true, Bool.or_eq_true,
    decide_not, Bool.not_eq_true, not_false_eq_true, not_true_eq_false,
    eq_self_iff_true,
    Option.isNone_some, Option.isNone_none, id_eq, Option.map_none', Option.map_some', decide_False, decide_True, Bool.not_false, Bool.not_true]

set_option maxHeartbeats 4000000 in
theorem stickyRegetNeg_run :
    storeGet (envSticky 7) 20 1 sticky2St =
      some (.error (.user 7), sticky3St) := by
  simp only [envSticky, sticky2St, sticky3St, mseq, mtry, mignore, mbind, mpure, mthrow, mfail, mtryCatch, mtryFinally,
    liftExcept, mmodify, mget, ensureAtomState, getAtomSt, updAtomSt, updMounted,
    setAtomStateValue, AtomSt.setValue, AtomSt.setError, returnAtomValuePure,
    isAtomStateInitialized, jsLookup, jsMapSet, jsMapDelete, jsMapUpdate, jsSetAdd,
    jsSetDelete, StoreSt.stateOf, StoreSt.mountedOf, getMountedDependents,
    evalRead, getterRead, recomputeAtomState, readAtomState, readDepsUnchanged,
    invalidateLoop, invalidateDependents, topoLoop, recomputeList,
    recomputeInvalidatedAtoms, mountAtom, mountDepsList, mountDepsPairs,
    mountDependencies, writeAtomState, evalWrite, setterCall, unmountAtom,
    unmountDepsList, collectTasks, runTask, runCalls, flushLoop_succ, flushCallbacks,
    storeGet, storeSet, storeSub, runOut, runState, primitiveAtom, derivedAtom,
    List.foldl_cons, List.foldl_nil, List.map_cons, List.map_nil,
    List.filter_cons, List.filter_nil, List.mem_cons, List.mem_singleton,
    List.not_mem_nil, List.any_cons, List.any_nil, List.cons_append,
    List.nil_append, List.append_nil, List.reverse_cons, List.reverse_nil,
    Option.map_some, Option.map_none, Option.getD_some, Option.getD_none,
    Option.isSome_some, Option.isSome_none, reduceIte, Nat.reduceAdd,
    Nat.reduceEqDiff, Int.reduceLT, Int.reduceEq, Int.reduceNeg, Int.reduceAdd,
    reduceCtorEq, ne_eq, not_false_iff, not_true, and_true, true_and, and_false,
    false_and, or_true, true_or, or_false, false_or, and_self, or_self,
    decide_eq_true_eq, Option.some.injEq, Prod.mk.injEq, if_true, if_false,
    Bool.or_self, Bool.or_false, Bool.false_or, Bool.or_true, Bool.true_or,
    Bool.and_self, Bool.and_false, Bool.false_and, Bool.and_true, Bool.true_and,
    Bool.false_eq_true, Bool.true_eq_false, Bool.and_eq_true, Bool.or_eq_true,
    decide_not, Bool.not_eq_true, not_false_eq_true, not_true_eq_false,
    eq_self_iff_true,
    Option.isNone_some, Option.isNone_none, id_eq, Option.map_none', Option.map_some', decide_False, decide_True, Bool.not_false, Bool.not_true]

set_option maxHeartbeats 4000000 in
theorem partialSetup_run : partialSetup {} = some (.ok (), partialSt) := by
  simp only [partialSetup, envPartialDeps, partialSt, mseq, mtry, mignore, mbind, mpure, mthrow, mfail, mtryCatch, mtryFinally,
    liftExcept, mmodify, mget, ensureAtomState, getAtomSt, updAtomSt, updMounted,
    setAtomStateValue, AtomSt.setValue, AtomSt.setError, returnAtomValuePure,
    isAtomStateInitialized, jsLookup, jsMapSet, jsMapDelete, jsMapUpdate, jsSetAdd,
    jsSetDelete, StoreSt.stateOf, StoreSt.mountedOf, getMountedDependents,
    evalRead, getterRead, recomputeAtomState, readAtomState, readDepsUnchanged,
    invalidateLoop, invalidateDependents, topoLoop, recomputeList,
    recomputeInvalidatedAtoms, mountAtom, mountDepsList, mountDepsPairs,
    mountDependencies, writeAtomState, evalWrite, setterCall, unmountAtom,
    unmountDepsList, collectTasks, runTask, runCalls, flushLoop_succ, flushCallbacks,
    storeGet, storeSet, storeSub, runOut, runState, primitiveAtom, derivedAtom,
    List.foldl_cons, List.foldl_nil, List.map_cons, List.map_nil,
    List.filter_cons, List.filter_nil, List.mem_cons, List.mem_singleton,
    List.not_mem_nil, List.any_cons, List.any_nil, List.cons_append,
    List.nil_append, List.append_nil, List.reverse_cons, List.reverse_nil,
    Option.map_some, Option.map_none, Option.getD_some, Option.getD_none,
    Option.isSome_some, Option.isSome_none, reduceIte, Nat.reduceAdd,
    Nat.reduceEqDiff, Int.reduceLT, Int.reduceEq, Int.reduceNeg, Int.reduceAdd,
    reduceCtorEq, ne_eq, not_false_iff, not_true, and_true, true_and, and_false,
    false_and, or_true, true_or, or_false, false_or, and_self, or_self,
    decide_eq_true_eq, Option.some.injEq, Prod.mk.injEq, if_true, if_false,
    Bool.or_self, Bool.or_false, Bool.false_or, Bool.or_true, Bool.true_or,
    Bool.and_self, Bool.and_false, Bool.false_and, Bool.and_true, Bool.true_and,
    Bool.false_eq_true, Bool.true_eq_false, Bool.and_eq_true, Bool.or_eq_true,
    decide_not, Bool.not_eq_true, not_false_eq_true, not_true_eq_false,
    eq_self_iff_true,
    Option.isNone_some, Option.isNone_none, id_eq, Option.map_none', Option.map_some', decide_False, decide_True, Bool.not_false, Bool.not_true]

set_option maxHeartbeats 4000000 in
set_option maxRecDepth 16000 in
theorem partialSet_run :
    storeSet envPartialDeps 30 0 (-5) partialSt = some (.ok (), partial2St) := by
  simp only [envPartialDeps, partialSt, partial2St, mseq, mtry, mignore, mbind, mpure, mthrow, mfail, mtryCatch, mtryFinally,
    liftExcept, mmodify, mget, ensureAtomState, getAtomSt, updAtomSt, updMounted,
    setAtomStateValue, AtomSt.setValue, AtomSt.setError, returnAtomValuePure,
    isAtomStateInitialized, jsLookup, jsMapSet, jsMapDelete, jsMapUpdate, jsSetAdd,
    jsSetDelete, StoreSt.stateOf, StoreSt.mountedOf, getMountedDependents,
    evalRead, getterRead, recomputeAtomState, readAtomState, readDepsUnchanged,
    invalidateLoop, invalidateDependents, topoLoop, recomputeList,
    recomputeInvalidatedAtoms, mountAtom, mountDepsList, mountDepsPairs,
    mountDependencies, writeAtomState, evalWrite, setterCall, unmountAtom,
    unmountDepsList, collectTasks, runTask, runCalls, flushLoop_succ, flushCallbacks,
    storeGet, storeSet, storeSub, runOut, runState, primitiveAtom, derivedAtom,
    List.foldl_cons, List.foldl_nil, List.map_cons, List.map_nil,
    List.filter_cons, List.filter_nil, List.mem_cons, List.mem_singleton,
    List.not_mem_nil, List.any_cons, List.any_nil, List.cons_append,
    List.nil_append, List.append_nil, List.reverse_cons, List.reverse_nil,
    Option.map_some, Option.map_none, Option.getD_some, Option.getD_none,
    Option.isSome_some, Option.isSome_none, reduceIte, Nat.reduceAdd,
    Nat.reduceEqDiff, Int.reduceLT, Int.reduceEq, Int.reduceNeg, Int.reduceAdd,
    reduceCtorEq, ne_eq, not_false_iff, not_true, and_true, true_and, and_false,
    false_and, or_true, true_or, or_false, false_or, and_self, or_self,
    decide_eq_true_eq, Option.some.injEq, Prod.mk.injEq, if_true, if_false,
    Bool.or_self, Bool.or_false, Bool.false_or, Bool.or_true, Bool.true_or,
    Bool.and_self, Bool.and_false, Bool.false_and, Bool.and_true, Bool.true_and,
    Bool.false_eq_true, Bool.true_eq_false, Bool.and_eq_true, Bool.or_eq_true,
    decide_not, Bool.not_eq_true, not_false_eq_true, not_true_eq_false,
    eq_self_iff_true,
    Option.isNone_some, Option.isNone_none, id_eq, Option.map_none', Option.map_some', decide_False, decide_True, Bool.not_false, Bool.not_true]

set_option maxHeartbeats 4000000 in
theorem partialGet_run :
    storeGet envPartialDeps 30 2 partial2St =
      some (.error (.user 7), partial3St) := by
  simp only [envPartialDeps, partial2St, partial3St, mseq, mtry, mignore, mbind, mpure, mthrow, mfail, mtryCatch, mtryFinally,
    liftExcept, mmodify, mget, ensureAtomState, getAtomSt, updAtomSt, updMounted,
    setAtomStateValue, AtomSt.setValue, AtomSt.setError, returnAtomValuePure,
    isAtomStateInitialized, jsLookup, jsMapSet, jsMapDelete, jsMapUpdate, jsSetAdd,
    jsSetDelete, StoreSt.stateOf, StoreSt.mountedOf, getMountedDependents,
    evalRead, getterRead, recomputeAtomState, readAtomState, readDepsUnchanged,
    invalidateLoop, invalidateDependents, topoLoop, recomputeList,
    recomputeInvalidatedAtoms, mountAtom, mountDepsList, mountDepsPairs,
    mountDependencies, writeAtomState, evalWrite, setterCall, unmountAtom,
    unmountDepsList, collectTasks, runTask, runCalls, flushLoop_succ, flushCallbacks,
    storeGet, storeSet, storeSub, runOut, runState, primitiveAtom, derivedAtom,
    List.foldl_cons, List.foldl_nil, List.map_cons, List.map_nil,
    List.filter_cons, List.filter_nil, List.mem_cons, List.mem_singleton,
    List.not_mem_nil, List.any_cons, List.any_nil, List.cons_append,
    List.nil_append, List.append_nil, List.reverse_cons, List.reverse_nil,
    Option.map_some, Option.map_none, Option.getD_some, Option.getD_none,
    Option.isSome_some, Option.isSome_none, reduceIte, Nat.reduceAdd,
    Nat.reduceEqDiff, Int.reduceLT, Int.reduceEq, Int.reduceNeg, Int.reduceAdd,
    reduceCtorEq, ne_eq, not_false_iff, not_true, and_true, true_and, and_false,
    false_and, or_true, true_or, or_false, false_or, and_self, or_self,
    decide_eq_true_eq, Option.some.injEq, Prod.mk.injEq, if_true, if_false,
    Bool.or_self, Bool.or_false, Bool.false_or, Bool.or_true, Bool.true_or,
    Bool.and_self, Bool.and_false, Bool.false_and, Bool.and_true, Bool.true_and,
    Bool.false_eq_true, Bool.true_eq_false, Bool.and_eq_true, Bool.or_eq_true,
    decide_not, Bool.not_eq_true, not_false_eq_true, not_true_eq_false,
    eq_self_iff_true,
    Option.isNone_some, Option.isNone_none, id_eq, Option.map_none', Option.map_some', decide_False, decide_True, Bool.not_false, Bool.not_true]


set_option maxHeartbeats 4000000 in
theorem primSub_run :
    storeSub envPrim 20 0 (.log 300) {} = some (.ok (), primSubSt) := by
  simp only [envPrim, primSubSt, mseq, mtry, mignore, mbind, mpure, mthrow, mfail, mtryCatch, mtryFinally,
    liftExcept, mmodify, mget, ensureAtomState, getAtomSt, updAtomSt, updMounted,
    setAtomStateValue, AtomSt.setValue, AtomSt.setError, returnAtomValuePure,
    isAtomStateInitialized, jsLookup, jsMapSet, jsMapDelete, jsMapUpdate, jsSetAdd,
    jsSetDelete, StoreSt.stateOf, StoreSt.mountedOf, getMountedDependents,
    evalRead, getterRead, recomputeAtomState, readAtomState, readDepsUnchanged,
    invalidateLoop, invalidateDependents, topoLoop, recomputeList,
    recomputeInvalidatedAtoms, mountAtom, mountDepsList, mountDepsPairs,
    mountDependencies, writeAtomState, evalWrite, setterCall, unmountAtom,
    unmountDepsList, collectTasks, runTask, runCalls, flushLoop_succ, flushCallbacks,
    storeGet, storeSet, storeSub, runOut, runState, primitiveAtom, derivedAtom,
    List.foldl_cons, List.foldl_nil, List.map_cons, List.map_nil,
    List.filter_cons, List.filter_nil, List.mem_cons, List.mem_singleton,
    List.not_mem_nil, List.any_cons, List.any_nil, List.cons_append,
    List.nil_append, List.append_nil, List.reverse_cons, List.reverse_nil,
    Option.map_some, Option.map_none, Option.getD_some, Option.getD_none,
    Option.isSome_some, Option.isSome_none, reduceIte, Nat.reduceAdd,
    Nat.reduceEqDiff, Int.reduceLT, Int.reduceEq, Int.reduceNeg, Int.reduceAdd,
    reduceCtorEq, ne_eq, not_false_iff, not_true, and_true, true_and, and_false,
    false_and, or_true, true_or, or_false, false_or, and_self, or_self,
    decide_eq_true_eq, Option.some.injEq, Prod.mk.injEq, if_true, if_false,
    Bool.or_self, Bool.or_false, Bool.false_or, Bool.or_true, Bool.true_or,
    Bool.and_self, Bool.and_false, Bool.false_and, Bool.and_true, Bool.true_and,
    Bool.false_eq_true, Bool.true_eq_false, Bool.and_eq_true, Bool.or_eq_true,
    decide_not, Bool.not_eq_true, not_false_eq_true, not_true_eq_false,
    eq_self_iff_true,
    Option.isNone_some, Option.isNone_none, id_eq, Option.map_none', Option.map_some', decide_False, decide_True, Bool.not_false, Bool.not_true]

set_option maxHeartbeats 4000000 in
theorem wSetup_run (e : Int) :
    writeThrowSetup e {} = some (.ok (), wSubSt) := by
  simp only [writeThrowSetup, envWriteThrow, wSubSt, mseq, mtry, mignore, mbind, mpure, mthrow, mfail, mtryCatch, mtryFinally,
    liftExcept, mmodify, mget, ensureAtomState, getAtomSt, updAtomSt, updMounted,
    setAtomStateValue, AtomSt.setValue, AtomSt.setError, returnAtomValuePure,
    isAtomStateInitialized, jsLookup, jsMapSet, jsMapDelete, jsMapUpdate, jsSetAdd,
    jsSetDelete, StoreSt.stateOf, StoreSt.mountedOf, getMountedDependents,
    evalRead, getterRead, recomputeAtomState, readAtomState, readDepsUnchanged,
    invalidateLoop, invalidateDependents, topoLoop, recomputeList,
    recomputeInvalidatedAtoms, mountAtom, mountDepsList, mountDepsPairs,
    mountDependencies, writeAtomState, evalWrite, setterCall, unmountAtom,
    unmountDepsList, collectTasks, runTask, runCalls, flushLoop_succ, flushCallbacks,
    storeGet, storeSet, storeSub, runOut, runState, primitiveAtom, derivedAtom,
    List.foldl_cons, List.foldl_nil, List.map_cons, List.map_nil,
    List.filter_cons, List.filter_nil, List.mem_cons, List.mem_singleton,
    List.not_mem_nil, List.any_cons, List.any_nil, List.cons_append,
    List.nil_append, List.append_nil, List.reverse_cons, List.reverse_nil,
    Option.map_some, Option.map_none, Option.getD_some, Option.getD_none,
    Option.isSome_some, Option.isSome_none, reduceIte, Nat.reduceAdd,
    Nat.reduceEqDiff, Int.reduceLT, Int.reduceEq, Int.reduceNeg, Int.reduceAdd,
    reduceCtorEq, ne_eq, not_false_iff, not_true, and_true, true_and, and_false,
    false_and, or_true, true_or, or_false, false_or, and_self, or_self,
    decide_eq_true_eq, Option.some.injEq, Prod.mk.injEq, if_true, if_false,
    Bool.or_self, Bool.or_false, Bool.false_or, Bool.or_true, Bool.true_or,
    Bool.and_self, Bool.and_false, Bool.false_and, Bool.and_true, Bool.true_and,
    Bool.false_eq_true, Bool.true_eq_false, Bool.and_eq_true, Bool.or_eq_true,
    decide_not, Bool.not_eq_true, not_false_eq_true, not_true_eq_false,
    eq_self_iff_true,
    Option.isNone_some, Option.isNone_none, id_eq, Option.map_none', Option.map_some', decide_False, decide_True, Bool.not_false, Bool.not_true]

set_option maxHeartbeats 4000000 in
theorem wSet_run (e : Int) :
    storeSet (envWriteThrow e) 30 2 0 wSubSt =
      some (.error (.user e), wAfterSt) := by
  simp only [envWriteThrow, wSubSt, wAfterSt, mseq, mtry, mignore, mbind, mpure, mthrow, mfail, mtryCatch, mtryFinally,
    liftExcept, mmodify, mget, ensureAtomState, getAtomSt, updAtomSt, updMounted,
    setAtomStateValue, AtomSt.setValue, AtomSt.setError, returnAtomValuePure,
    isAtomStateInitialized, jsLookup, jsMapSet, jsMapDelete, jsMapUpdate, jsSetAdd,
    jsSetDelete, StoreSt.stateOf, StoreSt.mountedOf, getMountedDependents,
    evalRead, getterRead, recomputeAtomState, readAtomState, readDepsUnchanged,
    invalidateLoop, invalidateDependents, topoLoop, recomputeList,
    recomputeInvalidatedAtoms, mountAtom, mountDepsList, mountDepsPairs,
    mountDependencies, writeAtomState, evalWrite, setterCall, unmountAtom,
    unmountDepsList, collectTasks, runTask, runCalls, flushLoop_succ, flushCallbacks,
    storeGet, storeSet, storeSub, runOut, runState, primitiveAtom, derivedAtom,
    List.foldl_cons, List.foldl_nil, List.map_cons, List.map_nil,
    List.filter_cons, List.filter_nil, List.mem_cons, List.mem_singleton,
    List.not_mem_nil, List.any_cons, List.any_nil, List.cons_append,
    List.nil_append, List.append_nil, List.reverse_cons, List.reverse_nil,
    Option.map_some, Option.map_none, Option.getD_some, Option.getD_none,
    Option.isSome_some, Option.isSome_none, reduceIte, Nat.reduceAdd,
    Nat.reduceEqDiff, Int.reduceLT, Int.reduceEq, Int.reduceNeg, Int.reduceAdd,
    reduceCtorEq, ne_eq, not_false_iff, not_true, and_true, true_and, and_false,
    false_and, or_true, true_or, or_false, false_or, and_self, or_self,
    decide_eq_true_eq, Option.some.injEq, Prod.mk.injEq, if_true, if_false,
    Bool.or_self, Bool.or_false, Bool.false_or, Bool.or_true, Bool.true_or,
    Bool.and_self, Bool.and_false, Bool.false_and, Bool.and_true, Bool.true_and,
    Bool.false_eq_true, Bool.true_eq_false, Bool.and_eq_true, Bool.or_eq_true,
    decide_not, Bool.not_eq_true, not_false_eq_true, not_true_eq_false,
    eq_self_iff_true,
    Option.isNone_some, Option.isNone_none, id_eq, Option.map_none', Option.map_some', decide_False, decide_True, Bool.not_false, Bool.not_true]

set_option maxHeartbeats 4000000 in
theorem diamondInit_run : diamondInit {} = some (.ok (), diamondInitSt) := by
  simp only [diamondInit, envDiamond, diamondInitSt, mseq, mtry, mignore, mbind, mpure, mthrow, mfail, mtryCatch, mtryFinally,
    liftExcept, mmodify, mget, ensureAtomState, getAtomSt, updAtomSt, updMounted,
    setAtomStateValue, AtomSt.setValue, AtomSt.setError, returnAtomValuePure,
    isAtomStateInitialized, jsLookup, jsMapSet, jsMapDelete, jsMapUpdate, jsSetAdd,
    jsSetDelete, StoreSt.stateOf, StoreSt.mountedOf, getMountedDependents,
    evalRead, getterRead, recomputeAtomState, readAtomState, readDepsUnchanged,
    invalidateLoop, invalidateDependents, topoLoop, recomputeList,
    recomputeInvalidatedAtoms, mountAtom, mountDepsList, mountDepsPairs,
    mountDependencies, writeAtomState, evalWrite, setterCall, unmountAtom,
    unmountDepsList, collectTasks, runTask, runCalls, flushLoop_succ, flushCallbacks,
    storeGet, storeSet, storeSub, runOut, runState, primitiveAtom, derivedAtom,
    List.foldl_cons, List.foldl_nil, List.map_cons, List.map_nil,
    List.filter_cons, List.filter_nil, List.mem_cons, List.mem_singleton,
    List.not_mem_nil, List.any_cons, List.any_nil, List.cons_append,
    List.nil_append, List.append_nil, List.reverse_cons, List.reverse_nil,
    Option.map_some, Option.map_none, Option.getD_some, Option.getD_none,
    Option.isSome_some, Option.isSome_none, reduceIte, Nat.reduceAdd,
    Nat.reduceEqDiff, Int.reduceLT, Int.reduceEq, Int.reduceNeg, Int.reduceAdd,
    reduceCtorEq, ne_eq, not_false_iff, not_true, and_true, true_and, and_false,
    false_and, or_true, true_or, or_false, false_or, and_self, or_self,
    decide_eq_true_eq, Option.some.injEq, Prod.mk.injEq, if_true, if_false,
    Bool.or_self, Bool.or_false, Bool.false_or, Bool.or_true, Bool.true_or,
    Bool.and_self, Bool.and_false, Bool.false_and, Bool.and_true, Bool.true_and,
    Bool.false_eq_true, Bool.true_eq_false, Bool.and_eq_true, Bool.or_eq_true,
    decide_not, Bool.not_eq_true, not_false_eq_true, not_true_eq_false,
    eq_self_iff_true,
    Option.isNone_some, Option.isNone_none, id_eq, Option.map_none', Option.map_some', decide_False, decide_True, Bool.not_false, Bool.not_true]

set_option maxHeartbeats 4000000 in
theorem diamondSub_run :
    storeSub envDiamond 30 3 (.log 100) diamondInitSt =
      some (.ok (), diamondSt) := by
  simp only [envDiamond, diamondInitSt, diamondSt, mseq, mtry, mignore, mbind, mpure, mthrow, mfail, mtryCatch, mtryFinally,
    liftExcept, mmodify, mget, ensureAtomState, getAtomSt, updAtomSt, updMounted,
    setAtomStateValue, AtomSt.setValue, AtomSt.setError, returnAtomValuePure,
    isAtomStateInitialized, jsLookup, jsMapSet, jsMapDelete, jsMapUpdate, jsSetAdd,
    jsSetDelete, StoreSt.stateOf, StoreSt.mountedOf, getMountedDependents,
    evalRead, getterRead, recomputeAtomState, readAtomState, readDepsUnchanged,
    invalidateLoop, invalidateDependents, topoLoop, recomputeList,
    recomputeInvalidatedAtoms, mountAtom, mountDepsList, mountDepsPairs,
    mountDependencies, writeAtomState, evalWrite, setterCall, unmountAtom,
    unmountDepsList, collectTasks, runTask, runCalls, flushLoop_succ, flushCallbacks,
    storeGet, storeSet, storeSub, runOut, runState, primitiveAtom, derivedAtom,
    List.foldl_cons, List.foldl_nil, List.map_cons, List.map_nil,
    List.filter_cons, List.filter_nil, List.mem_cons, List.mem_singleton,
    List.not_mem_nil, List.any_cons, List.any_nil, List.cons_append,
    List.nil_append, List.append_nil, List.reverse_cons, List.reverse_nil,
    Option.map_some, Option.map_none, Option.getD_some, Option.getD_none,
    Option.isSome_some, Option.isSome_none, reduceIte, Nat.reduceAdd,
    Nat.reduceEqDiff, Int.reduceLT, Int.reduceEq, Int.reduceNeg, Int.reduceAdd,
    reduceCtorEq, ne_eq, not_false_iff, not_true, and_true, true_and, and_false,
    false_and, or_true, true_or, or_false, false_or, and_self, or_self,
    decide_eq_true_eq, Option.some.injEq, Prod.mk.injEq, if_true, if_false,
    Bool.or_self, Bool.or_false, Bool.false_or, Bool.or_true, Bool.true_or,
    Bool.and_self, Bool.and_false, Bool.false_and, Bool.and_true, Bool.true_and,
    Bool.false_eq_true, Bool.true_eq_false, Bool.and_eq_true, Bool.or_eq_true,
    decide_not, Bool.not_eq_true, not_false_eq_true, not_true_eq_false,
    eq_self_iff_true,
    Option.isNone_some, Option.isNone_none, id_eq, Option.map_none', Option.map_some', decide_False, decide_True, Bool.not_false, Bool.not_true]

set_option maxHeartbeats 4000000 in
theorem diamondSet_run (x : Value) (hx : x ≠ 0) :
    storeSet envDiamond 30 0 x diamondSt = some (.ok (), diamondAfterSt x) := by
  have h0 : ((0 : Int) = x) = False := by
    refine eq_false ?_
    exact fun hh => hx hh.symm
  have h1 : ((0 : Int) = x + x) = False := by
    refine eq_false ?_
    intro hh
    exact hx (add_self_eq_zero.mp hh.symm)
  simp only [envDiamond, diamondSt, diamondAfterSt, h0, h1, mseq, mtry, mignore, mbind, mpure, mthrow, mfail, mtryCatch, mtryFinally,
    liftExcept, mmodify, mget, ensureAtomState, getAtomSt, updAtomSt, updMounted,
    setAtomStateValue, AtomSt.setValue, AtomSt.setError, returnAtomValuePure,
    isAtomStateInitialized, jsLookup, jsMapSet, jsMapDelete, jsMapUpdate, jsSetAdd,
    jsSetDelete, StoreSt.stateOf, StoreSt.mountedOf, getMountedDependents,
    evalRead, getterRead, recomputeAtomState, readAtomState, readDepsUnchanged,
    invalidateLoop, invalidateDependents, topoLoop, recomputeList,
    recomputeInvalidatedAtoms, mountAtom, mountDepsList, mountDepsPairs,
    mountDependencies, writeAtomState, evalWrite, setterCall, unmountAtom,
    unmountDepsList, collectTasks, runTask, runCalls, flushLoop_succ, flushCallbacks,
    storeGet, storeSet, storeSub, runOut, runState, primitiveAtom, derivedAtom,
    List.foldl_cons, List.foldl_nil, List.map_cons, List.map_nil,
    List.filter_cons, List.filter_nil, List.mem_cons, List.mem_singleton,
    List.not_mem_nil, List.any_cons, List.any_nil, List.cons_append,
    List.nil_append, List.append_nil, List.reverse_cons, List.reverse_nil,
    Option.map_some, Option.map_none, Option.getD_some, Option.getD_none,
    Option.isSome_some, Option.isSome_none, reduceIte, Nat.reduceAdd,
    Nat.reduceEqDiff, Int.reduceLT, Int.reduceEq, Int.reduceNeg, Int.reduceAdd,
    reduceCtorEq, ne_eq, not_false_iff, not_true, and_true, true_and, and_false,
    false_and, or_true, true_or, or_false, false_or, and_self, or_self,
    decide_eq_true_eq, Option.some.injEq, Prod.mk.injEq, if_true, if_false,
    Bool.or_self, Bool.or_false, Bool.false_or, Bool.or_true, Bool.true_or,
    Bool.and_self, Bool.and_false, Bool.false_and, Bool.and_true, Bool.true_and,
    Bool.false_eq_true, Bool.true_eq_false, Bool.and_eq_true, Bool.or_eq_true,
    decide_not, Bool.not_eq_true, not_false_eq_true, not_true_eq_false,
    eq_self_iff_true,
    Option.isNone_some, Option.isNone_none, id_eq, Option.map_none', Option.map_some', decide_False, decide_True, Bool.not_false, Bool.not_true]



/-! ## C1: diamond dependencies -/

/-- C1: the diamond store `diamondSt` is reached by initialising the diamond
and subscribing a listener to `C` (`diamondSetup`); for every `x ≠ 0`, a
single `set(A, x)` — a write that changes `A`'s value — recomputes `B1`,
`B2` and then `C` exactly once each (the `reads` log gains `1, 2, 3`: `C` is
recomputed once, not once per path, and only after both of its changed
dependencies), fires `C`'s listener exactly once (the log becomes exactly
`[100]`), and caches `C = x + x`. -/
theorem diamond_recompute_once (x : Value) (hx : x ≠ 0) :
    diamondSetup {} = some (.ok (), diamondSt) ∧
    runOut (storeSet envDiamond 30 0 x diamondSt) = some (.ok ()) ∧
    (runState (storeSet envDiamond 30 0 x diamondSt)).reads =
      diamondSt.reads ++ [1, 2, 3] ∧
    (runState (storeSet envDiamond 30 0 x diamondSt)).log = [100] ∧
    ((runState (storeSet envDiamond 30 0 x diamondSt)).stateOf 3).value =
      some (x + x) := by
  refine ⟨?_, ?_, ?_, ?_, ?_⟩
  · simp only [diamondSetup, mbind, diamondInit_run, diamondSub_run]
  all_goals
    simp only [diamondSet_run x hx, runOut, runState, Option.map_some',
      Option.getD_some]
  all_goals
    simp only [diamondSt, diamondAfterSt, StoreSt.stateOf, jsLookup, Option.getD_some,
      reduceIte, Nat.reduceEqDiff, List.cons_append, List.nil_append]

/-- Witness for `diamond_recompute_once` at `x = 1`. -/
theorem diamond_recompute_once_witness :
    (runState (storeSet envDiamond 30 0 1 diamondSt)).reads =
      diamondSt.reads ++ [1, 2, 3] ∧
    (runState (storeSet envDiamond 30 0 1 diamondSt)).log = [100] :=
  ⟨(diamond_recompute_once 1 (by decide)).2.2.1,
   (diamond_recompute_once 1 (by decide)).2.2.2.1⟩

/-! ## C2: memoization (code bug) -/

/-- C2 (code bug): on the chain `P → D1 → D2` with `P` initialised to `0`,
`D1` evaluated while `P = 0`, and `P` then set to `1` with nothing mounted,
two consecutive `store.get(D2)` calls with no intervening write return `0`
and then `1` — two values that are not `Object.is`-equal — and invoke `D2`'s
read function once in each call (`reads` gains `2` twice).  The read-path
getter returns the *cached* state of a dependency without recursively
evaluating it (`ensureAtomState`/`returnAtomValue` instead of
`readAtomState`), so the first evaluation of `D2` reads `D1`'s stale value. -/
theorem memoization_code_bug :
    runOut (mbind chainSetup (fun _ => storeGet envChain 20 2) {}) =
      some (.ok 0) ∧
    runOut
        (mbind chainSetup
          (fun _ =>
            mbind (mignore (storeGet envChain 20 2))
              (fun _ => storeGet envChain 20 2)) {}) =
      some (.ok 1) ∧
    (runState
        (mbind chainSetup
          (fun _ =>
            mbind (mignore (storeGet envChain 20 2))
              (fun _ => storeGet envChain 20 2)) {})).reads =
      [0, 1, 2, 1, 2] := by
  refine ⟨?_, ?_, ?_⟩
  all_goals
    simp only [mbind, mignore, mpure, chainSetup_run, chainGet2_first,
      chainGet2_second, runOut, runState, Option.map_some', Option.getD_some]
  all_goals
    simp only [chainSt3]

/-! ## C4: error stickiness -/

/-- C4: for every thrown value `e`: after `P = atom(-1)` is read and the
read of `D` throws `e`, the error is stored in `D`'s error slot with the
value slot empty; a second `store.get(D)` re-throws that same error without
invoking any read function again (the `reads` log is unchanged) and leaves
the store unchanged; after `set(P, 5)` makes the read succeed, `store.get(D)`
returns `5` and the error slot is cleared. -/
theorem error_stickiness (e : Int) :
    ((runState (stickyRun e {})).stateOf 1).error = some (.user e) ∧
    ((runState (stickyRun e {})).stateOf 1).value = none ∧
    mbind (stickyRun e) (fun _ => storeGet (envSticky e) 20 1) {} =
      some (.error (.user e), stickyErrSt e) ∧
    (runState (mbind (stickyRun e) (fun _ => storeGet (envSticky e) 20 1) {})).reads =
      (runState (stickyRun e {})).reads ∧
    mbind (stickyFixRun e) (fun _ => storeGet (envSticky e) 20 1) {} =
      some (.ok 5, stickyDoneSt) ∧
    ((runState
        (mbind (stickyFixRun e)
          (fun _ => storeGet (envSticky e) 20 1) {})).stateOf 1).error =
      none ∧
    ((runState
        (mbind (stickyFixRun e)
          (fun _ => storeGet (envSticky e) 20 1) {})).stateOf 1).value =
      some 5 := by
  refine ⟨?_, ?_, ?_, ?_, ?_, ?_, ?_⟩
  all_goals
    simp only [mbind, mtry, mignore, mtryCatch, mpure, stickyFixRun,
      stickyRun_run, stickyReget_run, stickySet_run, stickyFinalGet_run,
      runState, Option.map_some', Option.getD_some]
  all_goals
    simp only [stickyErrSt, stickyDoneSt, StoreSt.stateOf, jsLookup,
      Option.getD_some, reduceIte, Nat.reduceEqDiff]

/-! ## C5 (counterexample) -/

/-- C5 (counterexample): a recompute of `D` that throws while `D` already
held the same cached error still bumps the epoch from 1 to 2, although no
value existed before or after the recompute and the evaluation outcome did
not transition between success and error (it stayed the error `user 7`). -/
theorem epoch_bump_error_counterexample :
    ((runState (stickyRun 7 {})).stateOf 1).n = 1 ∧
    ((runState (stickyRun 7 {})).stateOf 1).value = none ∧
    ((runState (stickyRun 7 {})).stateOf 1).error = some (.user 7) ∧
    ((runState
        (mbind (stickyRun 7)
          (fun _ =>
            mseq
              [ mtry (storeSet (envSticky 7) 20 0 (-2))
              , mtry (storeGet (envSticky 7) 20 1) ]) {})).stateOf 1).n = 2 ∧
    ((runState
        (mbind (stickyRun 7)
          (fun _ =>
            mseq
              [ mtry (storeSet (envSticky 7) 20 0 (-2))
              , mtry (storeGet (envSticky 7) 20 1) ]) {})).stateOf 1).value =
      none ∧
    ((runState
        (mbind (stickyRun 7)
          (fun _ =>
            mseq
              [ mtry (storeSet (envSticky 7) 20 0 (-2))
              , mtry (storeGet (envSticky 7) 20 1) ]) {})).stateOf 1).error =
      some (.user 7) := by
  refine ⟨?_, ?_, ?_, ?_, ?_, ?_⟩
  all_goals
    simp only [mbind, mseq, mtry, mignore, mtryCatch, mpure, List.foldl_cons,
      List.foldl_nil, stickyRun_run, stickySetNeg_run, stickyRegetNeg_run,
      runState, Option.map_some', Option.getD_some]
  all_goals
    simp only [stickyErrSt, sticky3St, StoreSt.stateOf, jsLookup, reduceIte,
      Option.getD_some, Nat.reduceEqDiff]

/-! ## C6 (counterexample) -/

/-- C6 (counterexample): the most recent *successful* evaluation of `D` read
`P` and `Q` (its recorded dependencies were `[(P, 1), (Q, 1)]` and the
getter log shows both reads), but after a later recompute that throws after
reading only `P`, the dependency map is `[(P, 2)]`: the entry for `Q`, which
the last successful evaluation read, does not survive the failed recompute.
-/
theorem deps_failed_recompute_counterexample :
    ((runState (partialSetup {})).stateOf 2).deps = [(0, 1), (1, 1)] ∧
    (runState (partialSetup {})).getterLog = [(2, 0, 1), (2, 1, 1)] ∧
    ((runState (partialAfter {})).stateOf 2).deps = [(0, 2)] ∧
    ((runState (partialAfter {})).stateOf 2).error = some (.user 7) := by
  refine ⟨?_, ?_, ?_, ?_⟩
  all_goals
    simp only [partialAfter, mbind, mseq, mtry, mignore, mtryCatch, mpure,
      List.foldl_cons, List.foldl_nil, partialSetup_run, partialSet_run,
      partialGet_run, runState, Option.map_some', Option.getD_some]
  all_goals
    simp only [partialSt, partial3St, StoreSt.stateOf, jsLookup, reduceIte,
      Option.getD_some, Nat.reduceEqDiff]

/-! ## C8 (counterexample and witness) -/

/-- C8 (counterexample): subscribing to the writable atom `P` leaves no
pending mount callbacks once the flush has drained, but one further
`mountAtom` on the already-mounted `P` leaves a pending `processOnMount`
entry while the mounted records are unchanged: the pending lifecycle work is
*not* the same as before the call. -/
theorem mountAtom_reenqueue_counterexample :
    storeSub envPrim 20 0 (.log 300) {} = some (.ok (), primSubSt) ∧
    primSubSt.mountCallbacks = [] ∧
    mountAtom envPrim 20 0 primSubSt =
      some (.ok { listeners := [.log 300] },
        { primSubSt with mountCallbacks := [0] }) := by
  have hm := mountAtom_mounted_idempotent envPrim 19 primSubSt 0
    { value := some 0, n := 1 } { listeners := [.log 300] } rfl rfl
  simp only [Nat.reduceAdd] at hm
  refine ⟨primSub_run, rfl, ?_⟩
  simpa [envPrim, primitiveAtom, primSubSt] using hm

/-- Witness for `mountAtom_mounted_idempotent` at a concrete store: the
mounted primitive `0` of `mountedPairStore` is returned unchanged and a
`processOnMount` entry is enqueued. -/
theorem mountAtom_mounted_idempotent_witness :
    mountAtom envPrim 5 0 mountedPairStore =
      some (.ok { dependents := [1] },
        { mountedPairStore with mountCallbacks := [0] }) := by
  have h := mountAtom_mounted_idempotent envPrim 4 mountedPairStore 0
    { value := some 0, n := 1 } { dependents := [1] } rfl rfl
  simpa [envPrim, primitiveAtom, mountedPairStore] using h

/-! ## C10: flush still happens when the write function throws -/

/-- C10: for every thrown value `e`: with a listener mounted on
`D = atom(get => get(P))` and a write-only atom `W` whose write function
first sets `P` to `5` and then throws `e`, `store.set(W)` still recomputes
`D` (its read runs once more and its cached value becomes `5`), still
delivers the listener notification (`200` is appended to the log), stores
`5` in `P` — and only then does the write function's error `e` propagate to
the caller of `set`. -/
theorem set_flushes_despite_write_error (e : Int) :
    mbind (writeThrowSetup e) (fun _ => storeSet (envWriteThrow e) 30 2 0) {} =
      some (.error (.user e), wAfterSt) ∧
    wAfterSt.log = [200] ∧
    wAfterSt.reads = wSubSt.reads ++ [1] ∧
    (wAfterSt.stateOf 0).value = some 5 ∧
    (wAfterSt.stateOf 1).value = some 5 := by
  refine ⟨?_, rfl, rfl, rfl, rfl⟩
  simp only [mbind, wSetup_run e, wSet_run e]

/-! ## C3: no-op write to a primitive -/

/-- C3: writing to an initialised primitive atom a value that is
`Object.is`-equal to its currently stored value (over integer values,
the same value `v`) leaves the whole store unchanged — in particular the
atom's epoch `n` is not bumped and no listener of any atom is invoked.
The hypotheses state that `i` is a primitive (`atom(v0)`) whose state is
initialised with a value and no error and, as for every primitive, no
recorded dependencies, and that the store is quiescent (no pending changed
atoms or lifecycle callbacks, as after any completed `set`/`sub`). -/
theorem primitive_noop_set :
    ∀ (env : Env) (f : Nat) (s : StoreSt) (i : AtomId) (v0 v : Value)
      (st : AtomSt),
      env i = primitiveAtom i v0 →
      (s.atomStateMap.map Prod.fst).Nodup →
      jsLookup s.atomStateMap i = some st →
      st.value = some v →
      st.error = none →
      st.deps = [] →
      s.changedAtoms = [] →
      s.mountCallbacks = [] →
      s.unmountCallbacks = [] →
      storeSet env (f + 5) i v s = some (.ok (), s) := by
  intro env f s i v0 v st henv hnd hlk hval herr hdeps hch hmc huc
  have hself : st.setValue v = st := by
    obtain ⟨stv, ste, std, stn⟩ := st
    simp only at hval herr hdeps
    subst hval
    subst herr
    subst hdeps
    simp [AtomSt.setValue]
  have hupd :
      jsMapUpdate s.atomStateMap i (fun st1 => st1.setValue v) =
        s.atomStateMap :=
    jsMapUpdate_self _ _ _ _ hnd hlk hself
  obtain ⟨stv, ste, std, stn⟩ := st
  simp only at hval herr hdeps
  subst hval
  subst herr
  subst hdeps
  obtain ⟨am, mm, ia, ca, mc, uc, rd, gl, lg⟩ := s
  simp only at hlk hch hmc huc hupd hnd
  subst hch
  subst hmc
  subst huc
  simp only [AtomSt.setValue] at hupd
  cases hm : jsLookup mm i with
  | none =>
      simp only [henv, hlk, hupd, hm, mseq, mtry, mignore, mbind, mpure, mthrow, mfail, mtryCatch, mtryFinally,
    liftExcept, mmodify, mget, ensureAtomState, getAtomSt, updAtomSt, updMounted,
    setAtomStateValue, AtomSt.setValue, AtomSt.setError, returnAtomValuePure,
    isAtomStateInitialized, jsLookup, jsMapSet, jsMapDelete, jsMapUpdate, jsSetAdd,
    jsSetDelete, StoreSt.stateOf, StoreSt.mountedOf, getMountedDependents,
    evalRead, getterRead, recomputeAtomState, readAtomState, readDepsUnchanged,
    invalidateLoop, invalidateDependents, topoLoop, recomputeList,
    recomputeInvalidatedAtoms, mountAtom, mountDepsList, mountDepsPairs,
    mountDependencies, writeAtomState, evalWrite, setterCall, unmountAtom,
    unmountDepsList, collectTasks, runTask, runCalls, flushLoop_succ, flushCallbacks,
    storeGet, storeSet, storeSub, runOut, runState, primitiveAtom, derivedAtom,
    List.foldl_cons, List.foldl_nil, List.map_cons, List.map_nil,
    List.filter_cons, List.filter_nil, List.mem_cons, List.mem_singleton,
    List.not_mem_nil, List.any_cons, List.any_nil, List.cons_append,
    List.nil_append, List.append_nil, List.reverse_cons, List.reverse_nil,
    Option.map_some, Option.map_none, Option.getD_some, Option.getD_none,
    Option.isSome_some, Option.isSome_none, reduceIte, Nat.reduceAdd,
    Nat.reduceEqDiff, Int.reduceLT, Int.reduceEq, Int.reduceNeg, Int.reduceAdd,
    reduceCtorEq, ne_eq, not_false_iff, not_true, and_true, true_and, and_false,
    false_and, or_true, true_or, or_false, false_or, and_self, or_self,
    decide_eq_true_eq, Option.some.injEq, Prod.mk.injEq, if_true, if_false,
    Bool.or_self, Bool.or_false, Bool.false_or, Bool.or_true, Bool.true_or,
    Bool.and_self, Bool.and_false, Bool.false_and, Bool.and_true, Bool.true_and,
    Bool.false_eq_true, Bool.true_eq_false, Bool.and_eq_true, Bool.or_eq_true,
    decide_not, Bool.not_eq_true, not_false_eq_true, not_true_eq_false,
    eq_self_iff_true,
    Option.isNone_some, Option.isNone_none, id_eq, Option.map_none', Option.map_some', decide_False, decide_True, Bool.not_false, Bool.not_true]
  | some m =>
      simp only [henv, hlk, hupd, hm, mseq, mtry, mignore, mbind, mpure, mthrow, mfail, mtryCatch, mtryFinally,
    liftExcept, mmodify, mget, ensureAtomState, getAtomSt, updAtomSt, updMounted,
    setAtomStateValue, AtomSt.setValue, AtomSt.setError, returnAtomValuePure,
    isAtomStateInitialized, jsLookup, jsMapSet, jsMapDelete, jsMapUpdate, jsSetAdd,
    jsSetDelete, StoreSt.stateOf, StoreSt.mountedOf, getMountedDependents,
    evalRead, getterRead, recomputeAtomState, readAtomState, readDepsUnchanged,
    invalidateLoop, invalidateDependents, topoLoop, recomputeList,
    recomputeInvalidatedAtoms, mountAtom, mountDepsList, mountDepsPairs,
    mountDependencies, writeAtomState, evalWrite, setterCall, unmountAtom,
    unmountDepsList, collectTasks, runTask, runCalls, flushLoop_succ, flushCallbacks,
    storeGet, storeSet, storeSub, runOut, runState, primitiveAtom, derivedAtom,
    List.foldl_cons, List.foldl_nil, List.map_cons, List.map_nil,
    List.filter_cons, List.filter_nil, List.mem_cons, List.mem_singleton,
    List.not_mem_nil, List.any_cons, List.any_nil, List.cons_append,
    List.nil_append, List.append_nil, List.reverse_cons, List.reverse_nil,
    Option.map_some, Option.map_none, Option.getD_some, Option.getD_none,
    Option.isSome_some, Option.isSome_none, reduceIte, Nat.reduceAdd,
    Nat.reduceEqDiff, Int.reduceLT, Int.reduceEq, Int.reduceNeg, Int.reduceAdd,
    reduceCtorEq, ne_eq, not_false_iff, not_true, and_true, true_and, and_false,
    false_and, or_true, true_or, or_false, false_or, and_self, or_self,
    decide_eq_true_eq, Option.some.injEq, Prod.mk.injEq, if_true, if_false,
    Bool.or_self, Bool.or_false, Bool.false_or, Bool.or_true, Bool.true_or,
    Bool.and_self, Bool.and_false, Bool.false_and, Bool.and_true, Bool.true_and,
    Bool.false_eq_true, Bool.true_eq_false, Bool.and_eq_true, Bool.or_eq_true,
    decide_not, Bool.not_eq_true, not_false_eq_true, not_true_eq_false,
    eq_self_iff_true,
    Option.isNone_some, Option.isNone_none, id_eq, Option.map_none', Option.map_some', decide_False, decide_True, Bool.not_false, Bool.not_true]

/-- Witness for `primitive_noop_set`: setting the initialised primitive of
`primReadySt` to its current value `0` is a complete no-op. -/
theorem primitive_noop_set_witness :
    storeSet envPrim 5 0 0 primReadySt = some (.ok (), primReadySt) := by
  have h := primitive_noop_set envPrim 0 primReadySt 0 0 0
    { value := some 0, n := 1 } rfl (by decide) rfl rfl rfl rfl rfl rfl rfl
  simpa using h


/-! ## Inversion lemmas for the monad combinators -/

theorem mbind_inv {α β : Type} {x : M α} {f : α → M β} {s s1 : StoreSt}
    {r : Except Err β} (h : mbind x f s = some (r, s1)) :
    (∃ e s2, x s = some (.error e, s2) ∧ r = .error e ∧ s1 = s2) ∨
    (∃ a s2, x s = some (.ok a, s2) ∧ f a s2 = some (r, s1)) := by
  unfold mbind at h
  cases hx : x s with
  | none => rw [hx] at h; exact absurd h (by simp)
  | some p =>
      obtain ⟨ra, s2⟩ := p
      rw [hx] at h
      cases ra with
      | error e =>
          left
          simp only [Option.some.injEq, Prod.mk.injEq] at h
          exact ⟨e, s2, rfl, h.1.symm, h.2.symm⟩
      | ok a => right; exact ⟨a, s2, rfl, h⟩

theorem mtryCatch_inv {α : Type} {x : M α} {hnd : Err → M α} {s s1 : StoreSt}
    {r : Except Err α} (h : mtryCatch x hnd s = some (r, s1)) :
    (∃ a s2, x s = some (.ok a, s2) ∧ r = .ok a ∧ s1 = s2) ∨
    (∃ e s2, x s = some (.error e, s2) ∧ hnd e s2 = some (r, s1)) := by
  unfold mtryCatch at h
  cases hx : x s with
  | none => rw [hx] at h; exact absurd h (by simp)
  | some p =>
      obtain ⟨ra, s2⟩ := p
      rw [hx] at h
      cases ra with
      | error e => right; exact ⟨e, s2, rfl, h⟩
      | ok a =>
          left
          simp only [Option.some.injEq, Prod.mk.injEq] at h
          exact ⟨a, s2, rfl, h.1.symm, h.2.symm⟩

theorem mtryFinally_inv {α : Type} {x : M α} {f : M Unit} {s s1 : StoreSt}
    {r : Except Err α} (h : mtryFinally x f s = some (r, s1)) :
    ∃ r0 s2, x s = some (r0, s2) ∧
      ((∃ s3, f s2 = some (.ok (), s3) ∧ r = r0 ∧ s1 = s3) ∨
       (∃ e s3, f s2 = some (.error e, s3) ∧ r = .error e ∧ s1 = s3)) := by
  unfold mtryFinally at h
  cases hx : x s with
  | none => rw [hx] at h; exact absurd h (by simp)
  | some p =>
      obtain ⟨r0, s2⟩ := p
      simp only [hx] at h
      refine ⟨r0, s2, rfl, ?_⟩
      cases hf : f s2 with
      | none => simp only [hf] at h; exact absurd h (by simp)
      | some q =>
          obtain ⟨rf, s3⟩ := q
          simp only [hf] at h
          cases rf with
          | ok u =>
              left
              cases u
              simp only [Option.some.injEq, Prod.mk.injEq] at h
              exact ⟨s3, rfl, h.1.symm, h.2.symm⟩
          | error e =>
              right
              simp only [Option.some.injEq, Prod.mk.injEq] at h
              exact ⟨e, s3, rfl, h.1.symm, h.2.symm⟩

/-! ## C7: the `unmountAtom` guard -/

/- Neither `unmountAtom` nor `unmountDepsList` ever creates a mounted
record (an atom unmounted before the call is still unmounted after), and
neither ever returns an exceptional result. -/
theorem unmount_preserves_unmounted (env : Env) (j : AtomId) :
    ∀ fuel : Nat,
      (∀ i s r s1, unmountAtom env fuel i s = some (r, s1) →
        (jsLookup s.mountedMap j = none → jsLookup s1.mountedMap j = none) ∧
          ∃ v, r = Except.ok v) ∧
      (∀ i l s r s1, unmountDepsList env fuel i l s = some (r, s1) →
        (jsLookup s.mountedMap j = none → jsLookup s1.mountedMap j = none) ∧
          r = Except.ok ()) := by
  intro fuel
  induction fuel with
  | zero =>
      constructor
      · intro i s r s1 h
        rw [show unmountAtom env 0 i = mfail from rfl] at h
        exact absurd h (by simp [mfail])
      · intro i l s r s1 h
        rw [show unmountDepsList env 0 i l = mfail from rfl] at h
        exact absurd h (by simp [mfail])
  | succ fuel ih =>
      obtain ⟨ihA, ihL⟩ := ih
      constructor
      · intro i s r s1 h
        cases hast : jsLookup s.atomStateMap i with
        | none =>
            simp only [unmountAtom, mbind, ensureAtomState, mmodify, getAtomSt,
              mget, StoreSt.mountedOf, StoreSt.stateOf, hast] at h
            cases hmi : jsLookup s.mountedMap i with
            | none =>
                simp only [hmi, mpure, Option.some.injEq, Prod.mk.injEq] at h
                obtain ⟨hr, hs⟩ := h
                subst hr; subst hs
                exact ⟨fun hj => hj, ⟨none, rfl⟩⟩
            | some m =>
                simp only [hmi] at h
                split at h
                · simp only [mbind, mmodify] at h
                  rcases mbind_inv h with ⟨e, s2, hl, rfl, rfl⟩ |
                      ⟨a, s2, hl, hrest⟩
                  · exact absurd (ihL _ _ _ _ _ hl).2 (by simp)
                  · simp only [mpure, Option.some.injEq, Prod.mk.injEq] at hrest
                    obtain ⟨hr, hs⟩ := hrest
                    subst hr; subst hs
                    refine ⟨fun hj => ?_, ⟨none, rfl⟩⟩
                    exact (ihL _ _ _ _ _ hl).1
                      (jsLookup_jsMapDelete_none _ _ _ hj)
                · simp only [mpure, Option.some.injEq, Prod.mk.injEq] at h
                  obtain ⟨hr, hs⟩ := h
                  subst hr; subst hs
                  exact ⟨fun hj => hj, ⟨some m, rfl⟩⟩
        | some ast =>
            simp only [unmountAtom, mbind, ensureAtomState, mmodify, getAtomSt,
              mget, StoreSt.mountedOf, StoreSt.stateOf, hast] at h
            cases hmi : jsLookup s.mountedMap i with
            | none =>
                simp only [hmi, mpure, Option.some.injEq, Prod.mk.injEq] at h
                obtain ⟨hr, hs⟩ := h
                subst hr; subst hs
                exact ⟨fun hj => hj, ⟨none, rfl⟩⟩
            | some m =>
                simp only [hmi] at h
                split at h
                · simp only [mbind, mmodify] at h
                  rcases mbind_inv h with ⟨e, s2, hl, rfl, rfl⟩ |
                      ⟨a, s2, hl, hrest⟩
                  · exact absurd (ihL _ _ _ _ _ hl).2 (by simp)
                  · simp only [mpure, Option.some.injEq, Prod.mk.injEq] at hrest
                    obtain ⟨hr, hs⟩ := hrest
                    subst hr; subst hs
                    refine ⟨fun hj => ?_, ⟨none, rfl⟩⟩
                    exact (ihL _ _ _ _ _ hl).1
                      (jsLookup_jsMapDelete_none _ _ _ hj)
                · simp only [mpure, Option.some.injEq, Prod.mk.injEq] at h
                  obtain ⟨hr, hs⟩ := h
                  subst hr; subst hs
                  exact ⟨fun hj => hj, ⟨some m, rfl⟩⟩
      · intro i l s r s1 h
        cases l with
        | nil =>
            simp only [unmountDepsList, mpure, Option.some.injEq,
              Prod.mk.injEq] at h
            obtain ⟨hr, hs⟩ := h
            subst hr; subst hs
            exact ⟨fun hj => hj, rfl⟩
        | cons a rest =>
            simp only [unmountDepsList] at h
            rcases mbind_inv h with ⟨e, s2, hx, rfl, rfl⟩ |
                ⟨aM, s2, hx, hrest⟩
            · obtain ⟨v, hv⟩ := (ihA _ _ _ _ hx).2
              exact absurd hv (by simp)
            · have hm2 := (ihA _ _ _ _ hx).1
              cases aM with
              | none =>
                  simp only [mbind, mpure] at hrest
                  obtain ⟨hmono, hres⟩ := ihL _ _ _ _ _ hrest
                  exact ⟨fun hj => hmono (hm2 hj), hres⟩
              | some m0 =>
                  simp only [mbind, updMounted, mmodify] at hrest
                  obtain ⟨hmono, hres⟩ := ihL _ _ _ _ _ hrest
                  refine ⟨fun hj => hmono ?_, hres⟩
                  exact jsLookup_jsMapUpdate_none _ _ _ _ (hm2 hj)

/- One unfolding step of `unmountAtom` on a mounted atom with a present
atom state: either the guard fails and the call is a pure no-op returning
the existing record, or the record is deleted and the dependency loop runs.
-/
theorem unmountAtom_step (env : Env) (fuel : Nat) (i : AtomId) (s : StoreSt)
    (ast : AtomSt) (m : MountedSt)
    (hast : jsLookup s.atomStateMap i = some ast)
    (hm : jsLookup s.mountedMap i = some m) :
    unmountAtom env (fuel + 1) i s =
      if m.listeners = [] ∧ ¬ ∃ a ∈ m.dependents,
          i ∈ (((jsLookup s.mountedMap a).map
                  (fun m2 => m2.dependencies)).getD []) then
        (mbind (unmountDepsList env fuel i (ast.deps.map Prod.fst))
           (fun _ => mpure none))
          { s with mountedMap := jsMapDelete s.mountedMap i }
      else some (.ok (some m), s) := by
  simp only [unmountAtom, mbind, ensureAtomState, mmodify, getAtomSt, mget,
    StoreSt.mountedOf, StoreSt.stateOf, hast, hm, Option.getD_some, mpure,
    ite_apply]

/-- C7: `unmountAtom` on a mounted atom `i` (mounted record `m`, atom state
present) removes the mounted record only when `i` has no listeners and no
mounted dependent that still lists `i` among its mounted dependencies.  If
this guard fails, the call returns the existing mounted record and leaves
the store completely unchanged; if the guard holds, the call (when it
completes within fuel) returns `none` and `i`'s mounted record is absent
from the resulting store. -/
theorem unmountAtom_guard (env : Env) (fuel : Nat) (i : AtomId) (s : StoreSt)
    (ast : AtomSt) (m : MountedSt)
    (hast : jsLookup s.atomStateMap i = some ast)
    (hm : jsLookup s.mountedMap i = some m) :
    (¬ (m.listeners = [] ∧ ¬ ∃ a ∈ m.dependents,
          i ∈ (((jsLookup s.mountedMap a).map
                  (fun m2 => m2.dependencies)).getD [])) →
       unmountAtom env (fuel + 1) i s = some (.ok (some m), s)) ∧
    (∀ r s1, unmountAtom env (fuel + 1) i s = some (r, s1) →
       (m.listeners = [] ∧ ¬ ∃ a ∈ m.dependents,
          i ∈ (((jsLookup s.mountedMap a).map
                  (fun m2 => m2.dependencies)).getD [])) →
       r = .ok none ∧ jsLookup s1.mountedMap i = none) := by
  constructor
  · intro hc
    rw [unmountAtom_step env fuel i s ast m hast hm, if_neg hc]
  · intro r s1 h hc
    rw [unmountAtom_step env fuel i s ast m hast hm, if_pos hc] at h
    rcases mbind_inv h with ⟨e, s2, hl, rfl, rfl⟩ | ⟨a, s2, hl, hrest⟩
    · exact absurd
        ((unmount_preserves_unmounted env i fuel).2 _ _ _ _ _ hl).2 (by simp)
    · have hdel :
          jsLookup (jsMapDelete s.mountedMap i) i = none :=
        jsLookup_jsMapDelete_self _ _
      have hkeep :=
        ((unmount_preserves_unmounted env i fuel).2 _ _ _ _ _ hl).1 hdel
      simp only [mpure, Option.some.injEq, Prod.mk.injEq] at hrest
      obtain ⟨hr, hs⟩ := hrest
      subst hr; subst hs
      exact ⟨rfl, hkeep⟩

/-- Witness for `unmountAtom_guard`: in `mountedPairStore`, atom `0` is
still listed as a mounted dependency of its mounted dependent `1`, so the
guard fails and `unmountAtom` is a no-op returning the existing record. -/
theorem unmountAtom_guard_witness :
    unmountAtom envPrim 5 0 mountedPairStore =
      some (.ok (some { dependents := [1] }), mountedPairStore) :=
  (unmountAtom_guard envPrim 4 0 mountedPairStore
      { value := some 0, n := 1 } { dependents := [1] } rfl rfl).1
    (by decide)



/-! ## C9: the flush delivers everything and aggregates errors -/

/-- Each collected callback raises at most one error. -/
theorem taskErrs_shape (env : Env) (t : Task) :
    taskErrs env t = [] ∨ ∃ e, taskErrs env t = [e] := by
  cases t with
  | listener cb =>
      cases cb with
      | log i => exact Or.inl rfl
      | logThenThrow i c => exact Or.inr ⟨_, rfl⟩
  | unmountCb cb =>
      cases cb with
      | log i => exact Or.inl rfl
      | logThenThrow i c => exact Or.inr ⟨_, rfl⟩
  | mountCb a =>
      cases honm : (env a).onMount with
      | none => left; simp [taskErrs, honm]
      | some spec =>
          cases hth : spec.thenThrow with
          | none => left; simp [taskErrs, honm, hth]
          | some c => right; exact ⟨.user c, by simp [taskErrs, honm, hth]⟩

/-- Invoking one collected callback always terminates, appends exactly its
log entries, raises exactly its errors, and touches nothing in the store
beyond the log and (for a succeeding mount hook) the mounted-record map. -/
theorem runTask_run (env : Env) (t : Task) (s : StoreSt) :
    runTask env t s =
      some (taskRes env t,
        { s with log := s.log ++ taskLog env t,
                 mountedMap := taskMounted env t s.mountedMap }) := by
  cases t with
  | listener cb => cases cb <;> rfl
  | unmountCb cb => cases cb <;> rfl
  | mountCb a =>
      cases honm : (env a).onMount with
      | none =>
          simp [runTask, taskRes, taskErrs, taskLog, taskMounted, honm, mpure]
      | some spec =>
          cases hth : spec.thenThrow with
          | some c =>
              simp [runTask, taskRes, taskErrs, taskLog, taskMounted, honm,
                hth, mbind, mmodify, mthrow]
          | none =>
              cases hru : spec.retUnmount with
              | true =>
                  simp [runTask, taskRes, taskErrs, taskLog, taskMounted,
                    honm, hth, hru, mbind, mmodify, mpure, updMounted]
              | false =>
                  simp [runTask, taskRes, taskErrs, taskLog, taskMounted,
                    honm, hth, hru, mbind, mmodify, mpure, updMounted]

/-- One step of `callbacks.forEach(call)`: the head callback is invoked
(catching its errors into the accumulator) and the loop continues with the
rest — an error never aborts the iteration. -/
theorem runCalls_cons (env : Env) (t : Task) (rest : List Task)
    (errs : List Err) (s : StoreSt) :
    runCalls env (t :: rest) errs s =
      runCalls env rest (errs ++ taskErrs env t)
        { s with log := s.log ++ taskLog env t,
                 mountedMap := taskMounted env t s.mountedMap } := by
  simp only [runCalls, List.foldl_cons]
  congr 1
  rcases taskErrs_shape env t with hte | ⟨e, hte⟩ <;>
    simp [runTask_run, taskRes, hte]

/-- `callbacks.forEach(call)` never aborts: every collected callback is
invoked even when earlier ones throw; the run appends the concatenation of
all their log entries, appends the concatenation of all their errors to the
accumulator, and leaves the pending changed atoms and lifecycle queues
untouched. -/
theorem runCalls_run (env : Env) :
    ∀ (tasks : List Task) (errs : List Err) (s : StoreSt),
      (runCalls env tasks errs s).1 = errs ++ tasksErrsAll env tasks ∧
      (runCalls env tasks errs s).2.log = s.log ++ tasksLogAll env tasks ∧
      (runCalls env tasks errs s).2.changedAtoms = s.changedAtoms ∧
      (runCalls env tasks errs s).2.unmountCallbacks = s.unmountCallbacks ∧
      (runCalls env tasks errs s).2.mountCallbacks = s.mountCallbacks := by
  intro tasks
  induction tasks with
  | nil =>
      intro errs s
      simp [runCalls, tasksErrsAll, tasksLogAll]
  | cons t rest ih =>
      intro errs s
      rw [runCalls_cons]
      obtain ⟨i1, i2, i3, i4, i5⟩ :=
        ih (errs ++ taskErrs env t)
          { s with log := s.log ++ taskLog env t,
                   mountedMap := taskMounted env t s.mountedMap }
      refine ⟨?_, ?_, ?_, ?_, ?_⟩
      · simp only [i1, tasksErrsAll, List.append_assoc]
      · simp only [i2, tasksLogAll, List.append_assoc]
      · simp only [i3]
      · simp only [i4]
      · simp only [i5]

/-- The collection phase clears the changed-atom set and both lifecycle
queues, and touches nothing else. -/
theorem collectTasks_snd (s : StoreSt) :
    (collectTasks s).2 =
      { s with changedAtoms := [], unmountCallbacks := [],
               mountCallbacks := [] } := rfl

/-- C9: a full `flushCallbacks` always delivers every collected callback —
an error thrown by a listener or mount/unmount hook does not prevent the
remaining collected callbacks from running, so the final log contains the
entries of *all* collected callbacks in order — and, once the loop is
quiescent, returns `ok` if no callback threw, and otherwise re-raises all
collected errors together as one `AggregateError` carrying them in order. -/
theorem flush_delivers_all_and_aggregates (env : Env) (fuel : Nat)
    (s : StoreSt) :
    ∃ s1 : StoreSt,
      flushCallbacks env (fuel + 2) s =
        some
          ((match tasksErrsAll env (collectTasks s).1 with
            | [] => Except.ok ()
            | e :: tl => Except.error (.aggregate (e :: tl))), s1) ∧
      s1.log = s.log ++ tasksLogAll env (collectTasks s).1 := by
  cases hcol : collectTasks s with
  | mk ts s0 =>
      have hs0 : s0 = { s with changedAtoms := [], unmountCallbacks := [], mountCallbacks := [] } := by
        rw [← collectTasks_snd s, hcol]
      obtain ⟨h1, h2, h3, h4, h5⟩ := runCalls_run env ts [] s0
      cases hrc : runCalls env ts [] s0 with
      | mk errs1 s2 =>
          simp only [hrc, List.nil_append] at h1 h2 h3 h4 h5
          subst h1
          have hch : s2.changedAtoms = [] := by rw [h3, hs0]
          have hum : s2.unmountCallbacks = [] := by rw [h4, hs0]
          have hmc : s2.mountCallbacks = [] := by rw [h5, hs0]
          have hlog : s2.log = s.log ++ tasksLogAll env ts := by
            rw [h2, hs0]
          refine ⟨s2, ?_, hlog⟩
          have hflush :
              flushLoop env (fuel + 1) [] s =
                some (.ok (tasksErrsAll env ts), s2) := by
            rw [flushLoop_succ]
            simp only [hcol, hrc, hch, hum, hmc, mbind, mpure, mget, ne_eq,
              eq_self_iff_true, not_true, if_false, or_self, or_false,
              false_or, if_true, ite_false, ite_true]
          simp only [flushCallbacks, mbind, hflush, hcol]
          cases htE : tasksErrsAll env ts with
          | nil => simp only [htE, mpure]
          | cons e tl => simp only [htE, mthrow]



/-! ## C6 (amended): dependencies are rebuilt from the reads of the current
evaluation -/

theorem jsLookup_jsMapSet_self {α : Type} (m : List (Nat × α)) (k : Nat)
    (v : α) : jsLookup (jsMapSet m k v) k = some v := by
  induction m with
  | nil => simp [jsMapSet, jsLookup]
  | cons p rest ih =>
      obtain ⟨k1, v1⟩ := p
      by_cases hk : k1 = k
      · subst hk
        simp [jsMapSet, jsLookup]
      · simp [jsMapSet, jsLookup, hk, ih]

/-- `ensureAtomState` on an atom whose state exists is a pure no-op. -/
theorem ensureAtomState_present (i : AtomId) (s : StoreSt) (st : AtomSt)
    (hst : jsLookup s.atomStateMap i = some st) :
    ensureAtomState i s = some (.ok (), s) := by
  simp [ensureAtomState, mmodify, hst]

/-- `ensureAtomState` on a missing atom installs the default state. -/
theorem ensureAtomState_absent (i : AtomId) (s : StoreSt)
    (hst : jsLookup s.atomStateMap i = none) :
    ensureAtomState i s =
      some (.ok (),
        { s with atomStateMap := jsMapSet s.atomStateMap i {} }) := by
  simp [ensureAtomState, mmodify, hst]

/-- `setAtomStateValue` on a present atom updates just that atom state. -/
theorem setAtomStateValue_present (i : AtomId) (v : Value) (s : StoreSt)
    (st : AtomSt) (hst : jsLookup s.atomStateMap i = some st) :
    setAtomStateValue i v s =
      some (.ok (),
        { s with
            atomStateMap :=
              jsMapUpdate s.atomStateMap i (fun st0 => st0.setValue v) }) := by
  simp [setAtomStateValue, mbind, ensureAtomState_present _ _ _ hst,
    updAtomSt, mmodify]

/- One getter invocation during the evaluation of `self = i`: it always
terminates; a read of a *different* atom `a` records exactly one dependency
entry `(a, n)` (logged as `(i, a, n)`), while a self-read records nothing;
the atom state of `i` stays present and its dependency map gains exactly the
recorded entries. -/
theorem getterRead_spec (env : Env) (i a : AtomId) (s : StoreSt)
    (hpres : (jsLookup s.atomStateMap i).isSome) :
    ∀ res s2, getterRead env i a s = some (res, s2) →
      (jsLookup s2.atomStateMap i).isSome ∧
      ∃ entries : List (AtomId × Nat),
        s2.getterLog = s.getterLog ++ entries.map (fun p => (i, p.1, p.2)) ∧
        (s2.stateOf i).deps =
          entries.foldl (fun d p => jsMapSet d p.1 p.2) ((s.stateOf i).deps) := by
  intro res s2 h
  obtain ⟨st, hst⟩ := Option.isSome_iff_exists.mp hpres
  by_cases hai : a = i
  · subst hai
    simp only [getterRead, ite_true, if_pos rfl, mbind,
      ensureAtomState_present _ _ _ hst, getAtomSt, StoreSt.stateOf, hst,
      Option.getD_some] at h
    cases hinit : isAtomStateInitialized st with
    | true =>
        simp only [hinit, reduceIte, ite_true, mpure, mbind, getAtomSt,
          StoreSt.stateOf, hst, Option.getD_some] at h
        cases hr : returnAtomValuePure st with
        | ok v =>
            simp only [hr, liftExcept, mpure, Option.some.injEq,
              Prod.mk.injEq] at h
            obtain ⟨hres, hs2⟩ := h
            subst hs2
            exact ⟨hpres, [], by simp, by simp⟩
        | error e =>
            simp only [hr, liftExcept, mthrow, Option.some.injEq,
              Prod.mk.injEq] at h
            obtain ⟨hres, hs2⟩ := h
            subst hs2
            exact ⟨hpres, [], by simp, by simp⟩
    | false =>
        simp only [hinit, Bool.false_eq_true, if_false, ite_false] at h
        cases hini : (env a).init with
        | some iv =>
            have hupd :=
              jsLookup_jsMapUpdate_some s.atomStateMap a
                (fun st0 => st0.setValue iv) st hst
            simp only [hini, setAtomStateValue_present _ _ _ _ hst, mbind,
              getAtomSt, StoreSt.stateOf, hupd, Option.getD_some] at h
            cases hr : returnAtomValuePure (st.setValue iv) with
            | ok v =>
                simp only [hr, liftExcept, mpure, Option.some.injEq,
                  Prod.mk.injEq] at h
                obtain ⟨hres, hs2⟩ := h
                subst hs2
                refine ⟨by simp [hupd], [], by simp, ?_⟩
                simp only [List.foldl_nil, StoreSt.stateOf, hupd, hst,
                  Option.getD_some]
                simp [AtomSt.setValue]
            | error e =>
                simp only [hr, liftExcept, mthrow, Option.some.injEq,
                  Prod.mk.injEq] at h
                obtain ⟨hres, hs2⟩ := h
                subst hs2
                refine ⟨by simp [hupd], [], by simp, ?_⟩
                simp only [List.foldl_nil, StoreSt.stateOf, hupd, hst,
                  Option.getD_some]
                simp [AtomSt.setValue]
        | none =>
            simp only [hini, mthrow, Option.some.injEq, Prod.mk.injEq] at h
            obtain ⟨hres, hs2⟩ := h
            subst hs2
            exact ⟨hpres, [], by simp, by simp⟩
  · have hai' : ¬ a = i := hai
    cases hla : jsLookup s.atomStateMap a with
    | some ast =>
        simp only [getterRead, if_neg hai', mbind,
          ensureAtomState_present _ _ _ hla, StoreSt.stateOf,
          StoreSt.mountedOf, hla, Option.getD_some] at h
        have hupd :=
          jsLookup_jsMapUpdate_some s.atomStateMap i
            (fun st0 => { st0 with deps := jsMapSet st0.deps a ast.n })
            st hst
        cases hmo : jsLookup s.mountedMap a with
        | some m0 =>
            simp only [hmo, Option.some.injEq, Prod.mk.injEq] at h
            obtain ⟨hres, hs2⟩ := h
            subst hs2
            refine ⟨by simp [hupd], [(a, ast.n)], by simp, ?_⟩
            simp [StoreSt.stateOf, hupd, hst]
        | none =>
            simp only [hmo, Option.some.injEq, Prod.mk.injEq] at h
            obtain ⟨hres, hs2⟩ := h
            subst hs2
            refine ⟨by simp [hupd], [(a, ast.n)], by simp, ?_⟩
            simp [StoreSt.stateOf, hupd, hst]
    | none =>
        have hia : a ≠ i := hai
        have hsla : jsLookup (jsMapSet s.atomStateMap a ({} : AtomSt)) a =
            some {} := jsLookup_jsMapSet_self _ _ _
        have hsti : jsLookup (jsMapSet s.atomStateMap a ({} : AtomSt)) i =
            some st := by
          rw [jsLookup_jsMapSet_ne _ _ _ _ hia, hst]
        simp only [getterRead, if_neg hai', mbind,
          ensureAtomState_absent _ _ hla, StoreSt.stateOf, StoreSt.mountedOf,
          hsla, Option.getD_some] at h
        have hupd :=
          jsLookup_jsMapUpdate_some (jsMapSet s.atomStateMap a {}) i
            (fun st0 => { st0 with deps := jsMapSet st0.deps a 0 })
            st hsti
        cases hmo : jsLookup s.mountedMap a with
        | some m0 =>
            simp only [hmo, Option.some.injEq, Prod.mk.injEq] at h
            obtain ⟨hres, hs2⟩ := h
            subst hs2
            refine ⟨by simp [hupd], [(a, 0)], by simp, ?_⟩
            simp [StoreSt.stateOf, hupd, hst]
        | none =>
            simp only [hmo, Option.some.injEq, Prod.mk.injEq] at h
            obtain ⟨hres, hs2⟩ := h
            subst hs2
            refine ⟨by simp [hupd], [(a, 0)], by simp, ?_⟩
            simp [StoreSt.stateOf, hupd, hst]


/- Running a read program through the getter preserves the presence of the
evaluating atom's state and extends its dependency map by exactly the
entries the getter recorded (in order), as witnessed by the getter log. -/
theorem evalRead_deps (env : Env) (i : AtomId) :
    ∀ (e : RExpr) (s : StoreSt) (r : Except Err Value) (s1 : StoreSt),
      (jsLookup s.atomStateMap i).isSome →
      evalRead env i e s = some (r, s1) →
      (jsLookup s1.atomStateMap i).isSome ∧
      ∃ entries : List (AtomId × Nat),
        s1.getterLog = s.getterLog ++ entries.map (fun p => (i, p.1, p.2)) ∧
        (s1.stateOf i).deps =
          entries.foldl (fun d p => jsMapSet d p.1 p.2) ((s.stateOf i).deps) := by
  intro e
  induction e with
  | lit v =>
      intro s r s1 hpres h
      simp only [evalRead, mpure, Option.some.injEq, Prod.mk.injEq] at h
      obtain ⟨hr, hs⟩ := h
      subst hs
      exact ⟨hpres, [], by simp, by simp⟩
  | throwE c =>
      intro s r s1 hpres h
      simp only [evalRead, mthrow, Option.some.injEq, Prod.mk.injEq] at h
      obtain ⟨hr, hs⟩ := h
      subst hs
      exact ⟨hpres, [], by simp, by simp⟩
  | getThen a k ih =>
      intro s r s1 hpres h
      simp only [evalRead] at h
      rcases mbind_inv h with ⟨e1, s2, hg, hre, hse⟩ | ⟨v, s2, hg, hrest⟩
      · subst hse
        obtain ⟨hp2, entries, hl, hd⟩ := getterRead_spec env i a s hpres _ _ hg
        exact ⟨hp2, entries, hl, hd⟩
      · obtain ⟨hp2, en1, hl1, hd1⟩ := getterRead_spec env i a s hpres _ _ hg
        obtain ⟨hp3, en2, hl2, hd2⟩ := ih v s2 r s1 hp2 hrest
        refine ⟨hp3, en1 ++ en2, ?_, ?_⟩
        · rw [hl2, hl1, List.map_append, List.append_assoc]
        · rw [hd2, hd1, List.foldl_append]

/- The `finally` block of `recomputeAtomState` always succeeds and touches
only the invalidated/changed bookkeeping: the getter log and the atom state
map are left exactly as they were. -/
theorem finally_block_spec (env : Env) (i : AtomId) (p : Nat) :
    ∀ (sx : StoreSt) (rF : Except Err Unit) (s2 : StoreSt),
      (mbind (getAtomSt i) fun st =>
       mbind mget fun s =>
       if p ≠ st.n ∧ jsLookup s.invalidatedAtoms i = some p then
         mmodify fun s1 =>
           { s1 with
             invalidatedAtoms := jsMapSet s1.invalidatedAtoms i st.n
             changedAtoms := jsSetAdd s1.changedAtoms i }
       else mpure ()) sx = some (rF, s2) →
      rF = .ok () ∧ s2.getterLog = sx.getterLog ∧
        s2.atomStateMap = sx.atomStateMap := by
  intro sx rF s2 h
  simp only [mbind, getAtomSt, mget, ite_apply, mmodify, mpure] at h
  split at h
  · simp only [Option.some.injEq, Prod.mk.injEq] at h
    obtain ⟨hr, hs⟩ := h
    subst hr
    subst hs
    exact ⟨rfl, rfl, rfl⟩
  · simp only [Option.some.injEq, Prod.mk.injEq] at h
    obtain ⟨hr, hs⟩ := h
    subst hr
    subst hs
    exact ⟨rfl, rfl, rfl⟩

/-- C6 (amended): a recompute of atom `i` — successful or failing — first
clears `i`'s dependency map and then rebuilds it from exactly the
dependency reads the getter records during *this* evaluation (each logged
as `(i, dep, epoch)`): afterwards the map is the fold of those entries over
the empty map, so nothing recorded by any earlier evaluation survives,
and on a throwing evaluation exactly the dependencies read before the
throw are retained. -/
theorem recompute_deps_exact (env : Env) (i : AtomId) (s : StoreSt)
    (r : Except Err AtomSt) (s1 : StoreSt)
    (hpres : (jsLookup s.atomStateMap i).isSome)
    (h : recomputeAtomState env i s = some (r, s1)) :
    ∃ entries : List (AtomId × Nat),
      s1.getterLog = s.getterLog ++ entries.map (fun p => (i, p.1, p.2)) ∧
      (s1.stateOf i).deps =
        entries.foldl (fun d p => jsMapSet d p.1 p.2) [] := by
  obtain ⟨st, hst⟩ := Option.isSome_iff_exists.mp hpres
  have hclr :
      jsLookup
          (jsMapUpdate s.atomStateMap i (fun st0 => { st0 with deps := [] }))
          i =
        some ((fun st0 => { st0 with deps := [] }) st) :=
    jsLookup_jsMapUpdate_some _ _ _ _ hst
  simp only [recomputeAtomState] at h
  rcases mbind_inv h with ⟨e0, sC, hu, hre, hse⟩ | ⟨u0, sC, hu, h2⟩
  · simp only [updAtomSt, mmodify, Option.some.injEq, Prod.mk.injEq,
      reduceCtorEq, false_and] at hu
  · simp only [updAtomSt, mmodify, Option.some.injEq, Prod.mk.injEq] at hu
    obtain ⟨hu1, hsC⟩ := hu
    subst hsC
    rcases mbind_inv h2 with ⟨e0, sD, hg, hre, hse⟩ | ⟨st0, sD, hg, h3⟩
    · simp only [getAtomSt, Option.some.injEq, Prod.mk.injEq,
        reduceCtorEq, false_and] at hg
    · simp only [getAtomSt, Option.some.injEq, Prod.mk.injEq,
        Except.ok.injEq] at hg
      obtain ⟨hst0, hsD⟩ := hg
      subst hst0
      subst hsD
      rcases mtryFinally_inv h3 with ⟨r0, s4, hX, hfin⟩
      rcases mbind_inv hX with ⟨eX, s5, hTC, hreX, hseX⟩ |
          ⟨aX, s5, hTC, hget2⟩
      · rcases mtryCatch_inv hTC with ⟨aY, s6, hY, hok, hs5⟩ |
            ⟨eY, s6, hY, hhnd⟩
        · exact absurd hok (by simp)
        · simp only [updAtomSt, mmodify, Option.some.injEq, Prod.mk.injEq,
            reduceCtorEq, false_and] at hhnd
      · simp only [getAtomSt, Option.some.injEq, Prod.mk.injEq] at hget2
        obtain ⟨hr0, hs4⟩ := hget2
        subst hs4
        rcases mtryCatch_inv hTC with ⟨aY, s6, hY, hok, hs5⟩ |
            ⟨eY, s6, hY, hhnd⟩
        · -- the evaluation succeeded
          subst hs5
          rcases mbind_inv hY with ⟨eM, sR, hm, hreM, hseM⟩ |
              ⟨uM, sR, hm, hrest⟩
          · simp only [mmodify, Option.some.injEq, Prod.mk.injEq,
              reduceCtorEq, false_and] at hm
          · simp only [mmodify, Option.some.injEq, Prod.mk.injEq] at hm
            obtain ⟨hm1, hsR⟩ := hm
            subst hsR
            rcases mbind_inv hrest with ⟨eE, sV, hE, hreE, hseE⟩ |
                ⟨v, sV, hE, hset⟩
            · exact absurd hreE (by simp)
            · obtain ⟨hpV, entries, hlV, hdV⟩ :=
                evalRead_deps env i ((env i).read) _ _ _ (by simp [hclr]) hE
              obtain ⟨stV, hstV⟩ := Option.isSome_iff_exists.mp hpV
              simp only [setAtomStateValue_present _ _ _ _ hstV,
                Option.some.injEq, Prod.mk.injEq] at hset
              obtain ⟨hok2, hs6⟩ := hset
              subst hs6
              have hupdV :=
                jsLookup_jsMapUpdate_some sV.atomStateMap i
                  (fun st0 => st0.setValue v) stV hstV
              have hdep :
                  stV.deps =
                    entries.foldl (fun d p => jsMapSet d p.1 p.2) [] := by
                have hthis := hdV
                simp only [StoreSt.stateOf, hstV, Option.getD_some,
                  hclr] at hthis
                exact hthis
              rcases hfin with ⟨s7, hF, hrr, hs1⟩ | ⟨eF, s7, hF, hrr, hs1⟩
              · obtain ⟨hok7, hlg7, ham7⟩ :=
                  finally_block_spec env i _ _ _ _ hF
                subst hs1
                refine ⟨entries, ?_, ?_⟩
                · simp only [hlg7, hlV]
                · simp only [StoreSt.stateOf, ham7, hupdV, Option.getD_some]
                  simpa [AtomSt.setValue] using hdep
              · obtain ⟨hok7, hlg7, ham7⟩ :=
                  finally_block_spec env i _ _ _ _ hF
                exact absurd hok7 (by simp)
        · -- the evaluation threw and the error was cached
          rcases mbind_inv hY with ⟨eM, sR, hm, hreM, hseM⟩ |
              ⟨uM, sR, hm, hrest⟩
          · simp only [mmodify, Option.some.injEq, Prod.mk.injEq,
              reduceCtorEq, false_and] at hm
          · simp only [mmodify, Option.some.injEq, Prod.mk.injEq] at hm
            obtain ⟨hm1, hsR⟩ := hm
            subst hsR
            rcases mbind_inv hrest with ⟨eE, sV, hE, hreE, hseE⟩ |
                ⟨v, sV, hE, hset⟩
            · subst hseE
              obtain ⟨hpV, entries, hlV, hdV⟩ :=
                evalRead_deps env i ((env i).read) _ _ _ (by simp [hclr]) hE
              obtain ⟨stV, hstV⟩ := Option.isSome_iff_exists.mp hpV
              simp only [updAtomSt, mmodify, Option.some.injEq,
                Prod.mk.injEq] at hhnd
              obtain ⟨hok3, hs5'⟩ := hhnd
              subst hs5'
              have hupdV :=
                jsLookup_jsMapUpdate_some s6.atomStateMap i
                  (fun st2 => st2.setError eY) stV hstV
              have hdep :
                  stV.deps =
                    entries.foldl (fun d p => jsMapSet d p.1 p.2) [] := by
                have hthis := hdV
                simp only [StoreSt.stateOf, hstV, Option.getD_some,
                  hclr] at hthis
                exact hthis
              rcases hfin with ⟨s7, hF, hrr, hs1⟩ | ⟨eF, s7, hF, hrr, hs1⟩
              · obtain ⟨hok7, hlg7, ham7⟩ :=
                  finally_block_spec env i _ _ _ _ hF
                subst hs1
                refine ⟨entries, ?_, ?_⟩
                · simp only [hlg7, hlV]
                · simp only [StoreSt.stateOf, ham7, hupdV, Option.getD_some]
                  simpa [AtomSt.setError] using hdep
              · obtain ⟨hok7, hlg7, ham7⟩ :=
                  finally_block_spec env i _ _ _ _ hF
                exact absurd hok7 (by simp)
            · obtain ⟨hpV, entries, hlV, hdV⟩ :=
                evalRead_deps env i ((env i).read) _ _ _ (by simp [hclr]) hE
              obtain ⟨stV, hstV⟩ := Option.isSome_iff_exists.mp hpV
              simp only [setAtomStateValue_present _ _ _ _ hstV,
                Option.some.injEq, Prod.mk.injEq, reduceCtorEq,
                false_and] at hset



/-- Witness for `recompute_deps_exact`: recomputing the initialised
primitive `0` of `primReadySt` (whose read touches only the atom itself)
rebuilds its dependency map to exactly the empty fold. -/
theorem recompute_deps_exact_witness :
    ∃ entries : List (AtomId × Nat),
      (runState (recomputeAtomState envPrim 0 primReadySt)).getterLog =
        primReadySt.getterLog ++ entries.map (fun p => (0, p.1, p.2)) ∧
      ((runState (recomputeAtomState envPrim 0 primReadySt)).stateOf 0).deps =
        entries.foldl (fun d p => jsMapSet d p.1 p.2) [] := by
  have hrun :
      recomputeAtomState envPrim 0 primReadySt =
        some (.ok { value := some 0, error := none, deps := [], n := 1 },
          { atomStateMap := [(0, { value := some 0, error := none, deps := [], n := 1 })], reads := [0, 0] }) := rfl
  have h := recompute_deps_exact envPrim 0 primReadySt _ _ rfl hrun
  simpa [runState, hrun] using h

end MiniJotai
